import Mathlib

/-!
# Page behaviours of `js/main.js`

A shallow embedding of the site script `js/main.js`.  The document and the
browser environment the script touches are an explicit state (`Page`); every
routine of the script is a function on that state, and every listener it
registers is a constructor that the event dispatchers below interpret.

Conventions of the embedding:

* a `classList` is the ordered token set of the DOM (`List String`),
  with `add`, `remove` and `contains` as in `DOMTokenList`;
* node lists returned by `querySelectorAll` are lists in document order and
  `querySelector` is the first match in that order;
* timers live in a queue with a virtual clock in milliseconds; a timer fires
  at its deadline, the timer with the earliest deadline first, registration
  order breaking ties;
* an exception thrown inside a timer callback is recorded in `Page.errors`;
* the scroll handler is written over an open number type (`JsNumber`); the
  browser's instance is `ieeeNumber`, IEEE-754 doubles with every operation
  rounded to nearest, ties to even.
-/

namespace MainJs

/-! ## DOM primitives -/

/-- Exceptions the used browser operations can raise. -/
inductive JsError where
  | NotFoundError
  | TypeError
  deriving DecidableEq, Repr

/-- The call `classList.add(token)` on an ordered token set. -/
def classListAdd (classList : List String) (token : String) : List String :=
  if token ∈ classList then classList else classList ++ [token]

/-- The call `classList.remove(token)`. -/
def classListRemove (classList : List String) (token : String) : List String :=
  classList.filter (fun c => c ≠ token)

/-- The call `classList.contains(token)`. -/
def classListContains (classList : List String) (token : String) : Bool :=
  decide (token ∈ classList)

/-- The method `String.prototype.split(sep)` for a one-character separator, on the
characters of the string: the result always has at least one segment. -/
def jsSplit (sep : Char) : List Char → List (List Char)
  | [] => [[]]
  | c :: cs =>
    if c = sep then [] :: jsSplit sep cs
    else
      match jsSplit sep cs with
      | [] => [[c]]
      | seg :: rest => (c :: seg) :: rest

/-- The method `Array.prototype.pop()` read as a value: the last element, `undefined`
(here `none`) on an empty array. -/
def jsPop {α : Type} (xs : List α) : Option α := xs.getLast?

/-- Apply `f` to the element at position `i`, when there is one. -/
def updateAt {α : Type} (f : α → α) : Nat → List α → List α
  | _, [] => []
  | 0, x :: xs => f x :: xs
  | i + 1, x :: xs => x :: updateAt f i xs

/-- Position of the first element satisfying `p` (document order). -/
def firstIndex {α : Type} (p : α → Bool) : List α → Option Nat
  | [] => none
  | x :: xs => if p x then some 0 else (firstIndex p xs).map (fun i => i + 1)

/-! ## Elements the script works on -/

/-- Click listeners the script binds to links. -/
inductive LinkListener where
  | collapseMenu
  | pageTransition
  deriving DecidableEq, Repr

/-- An element of the `.navbar-nav .nav-link` set. -/
structure NavLink where
  href : Option String
  classList : List String
  clickListeners : List LinkListener
  deriving DecidableEq, Repr

/-- An `a` element: its `href` attribute, and the `hostname` and `href`
properties the browser resolves from it. -/
structure Anchor where
  hrefAttr : Option String
  hostname : String
  href : String
  clickListeners : List LinkListener
  deriving DecidableEq, Repr

/-- A `.card` element. -/
structure Card where
  classList : List String
  deriving DecidableEq, Repr

/-- A `section` element with the one inline style the script writes. -/
structure Section where
  classList : List String
  backgroundPositionY : String
  deriving DecidableEq, Repr

/-- A child of `document.body` as far as the script can tell them apart:
`node` is the identity of the DOM node.  The `class` attribute is kept both
as the string and as its token set; every write keeps the two in step. -/
structure Element where
  node : Nat
  textContent : String
  /-- The `class` attribute as a string. -/
  className : String
  /-- The token set of the `class` attribute. -/
  classList : List String
  deriving DecidableEq, Repr

/-- Callbacks the script hands to `setTimeout`; the argument is the captured
notification node or target URL. -/
inductive Task where
  | showNotificationEnter (node : Nat)
  | showNotificationClose (node : Nat)
  | showNotificationRemove (node : Nat)
  | navigate (targetUrl : String)
  deriving DecidableEq, Repr

/-- A pending timer: absolute deadline on the virtual clock and callback. -/
structure Timer where
  due : Nat
  task : Task
  deriving DecidableEq, Repr

/-- Listeners the script binds to `window`. -/
inductive WindowListener where
  | scrollAnimations
  | collapseOnScroll
  | adjustTopPadding
  deriving DecidableEq, Repr

/-- Listeners bound to the `(prefers-color-scheme: dark)` media query list. -/
inductive MediaListener where
  | syncDarkMode
  deriving DecidableEq, Repr

/-- The media query list `window.matchMedia` returns for the dark-scheme query. -/
structure MediaQueryList where
  isDark : Bool
  changeListeners : List MediaListener
  deriving DecidableEq, Repr

/-- The document and browser state the script reads and writes. -/
structure Page where
  /-- The `window.location.pathname` string. -/
  pathname : String
  /-- The `window.location.hostname` string. -/
  hostname : String
  /-- The `window.location.href` string. -/
  locationHref : String
  /-- The dark-scheme query list; `none` when `window.matchMedia` is undefined. -/
  darkQuery : Option MediaQueryList
  /-- The `.navbar-nav .nav-link` elements in document order. -/
  navLinks : List NavLink
  /-- The `a` elements in document order. -/
  anchors : List Anchor
  /-- The `.card` elements in document order. -/
  cards : List Card
  /-- The `section` elements in document order. -/
  sections : List Section
  /-- The `offsetHeight` of the first `.navbar`, when there is one. -/
  navbar : Option Nat
  /-- The class list of the first `.navbar-collapse`, when there is one. -/
  navbarCollapse : Option (List String)
  /-- Clicks received by the first `.navbar-toggler`, when there is one. -/
  navbarToggler : Option Nat
  /-- What the click listener bound to the toggle control by the menu
  framework does to the class list of the collapsible region. -/
  onTogglerClick : List String → List String
  bodyClassList : List String
  /-- The inline `body.style.paddingTop`. -/
  bodyPaddingTop : String
  bodyChildren : List Element
  /-- Identity of the next node `document.createElement` returns. -/
  nextNode : Nat
  scrollListeners : List WindowListener
  resizeListeners : List WindowListener
  /-- The virtual clock, in milliseconds. -/
  now : Nat
  /-- Pending timers in registration order. -/
  timers : List Timer
  /-- Was `preventDefault` called on the event being dispatched. -/
  defaultPrevented : Bool
  /-- Uncaught exceptions reported so far. -/
  errors : List JsError

/-! ## `activateCurrentNavLink` (lines 37-61) -/

/-- Line 39: `window.location.pathname.split('/').pop()`. -/
def currentPage (pathname : String) : String :=
  match jsPop (jsSplit '/' pathname.data) with
  | some seg => String.mk seg
  | none => ""

/-- Body of the `forEach` of lines 45-52 for one link. -/
def resetNavLink (page : String) (link : NavLink) : NavLink :=
  let link := { link with classList := classListRemove link.classList "active" }
  if link.href = some page then
    { link with classList := classListAdd link.classList "active" }
  else link

/-- Line 56: `document.querySelector('.navbar-nav .nav-link[href="index.html"]')`
as a position in the link set. -/
def queryHomeLink (links : List NavLink) : Option Nat :=
  firstIndex (fun link => decide (link.href = some "index.html")) links

/-- The routine on the link set, for a given last path segment. -/
def activateNavLinks (page : String) (links : List NavLink) : List NavLink :=
  let links := links.map (resetNavLink page)
  if page = "" ∨ page = "/" ∨ page = "index.html" then
    match queryHomeLink links with
    | some i =>
      updateAt (fun link => { link with classList := classListAdd link.classList "active" }) i links
    | none => links
  else links

/-- The routine `activateCurrentNavLink()`. -/
def activateCurrentNavLink (p : Page) : Page :=
  { p with navLinks := activateNavLinks (currentPage p.pathname) p.navLinks }

/-- Number of links of the set whose `href` attribute is the given segment. -/
def matchCount (page : String) (links : List NavLink) : Nat :=
  (links.filter (fun link => decide (link.href = some page))).length

/-- Number of links of the set that carry `active`. -/
def activeCount (links : List NavLink) : Nat :=
  (links.filter (fun link => classListContains link.classList "active")).length

/-! ## `initScrollAnimations` (lines 66-98) -/

/-- The arithmetic of JavaScript numbers as the scroll handler uses it:
`pointNine` and `pointOne` are the literals `0.9` and `0.1`, `toText` the
conversion applied by `offset + 'px'`.  The browser's instance is
`ieeeNumber`. -/
structure JsNumber (α : Type) where
  add : α → α → α
  sub : α → α → α
  mul : α → α → α
  gt : α → α → Bool
  pointNine : α
  pointOne : α
  toText : α → String

/-- A JavaScript number: a finite double, written as the dyadic rational
`m * 2 ^ e`, an infinity or NaN.  The sign of a zero is not kept, as no
operation of the script tells the two zeros apart. -/
inductive Double where
  | finite (m : Int) (e : Int)
  | posInf
  | negInf
  | nan
  deriving DecidableEq, Repr

/-- Number of binary digits of `n`, with `fuel` halvings at most. -/
def bitLengthAux : Nat → Nat → Nat
  | 0, _ => 0
  | fuel + 1, n => if n = 0 then 0 else bitLengthAux fuel (n / 2) + 1

/-- Number of binary digits of `n`. -/
def bitLength (n : Nat) : Nat := bitLengthAux n n

/-- The integer nearest to `n / 2 ^ k`, the even one of two equally near. -/
def roundHalfEven (n k : Nat) : Nat :=
  let q := n / 2 ^ k
  let r := n % 2 ^ k
  if 2 * r < 2 ^ k then q
  else if 2 ^ k < 2 * r then q + 1
  else if q % 2 = 0 then q else q + 1

/-- Round the exact value `m * 2 ^ e` to a double: 53 significant bits, least
exponent `-1074`, round to nearest with ties to even, an infinity from
`2 ^ 1024` on. -/
def roundToDouble (m : Int) (e : Int) : Double :=
  if m = 0 then .finite 0 0
  else
    let mag := m.natAbs
    let top : Int := (bitLength mag : Int) - 1 + e
    let t : Int := max (top - 52) (-1074)
    let n : Nat :=
      if t ≤ e then mag * 2 ^ (e - t).toNat else roundHalfEven mag (t - e).toNat
    if (bitLength n : Int) + t > 1024 then (if m < 0 then .negInf else .posInf)
    else .finite (if m < 0 then -(n : Int) else (n : Int)) t

/-- The operator `+` on numbers. -/
def Double.add : Double → Double → Double
  | .finite m₁ e₁, .finite m₂ e₂ =>
    let e := min e₁ e₂
    roundToDouble (m₁ * 2 ^ (e₁ - e).toNat + m₂ * 2 ^ (e₂ - e).toNat) e
  | .nan, _ => .nan
  | _, .nan => .nan
  | .posInf, .negInf => .nan
  | .negInf, .posInf => .nan
  | .posInf, _ => .posInf
  | .negInf, _ => .negInf
  | _, .posInf => .posInf
  | _, .negInf => .negInf

/-- The unary operator `-`. -/
def Double.neg : Double → Double
  | .finite m e => .finite (-m) e
  | .posInf => .negInf
  | .negInf => .posInf
  | .nan => .nan

/-- The operator `-` on numbers. -/
def Double.sub (a b : Double) : Double := a.add b.neg

/-- The sign of a number: `1`, `0` or `-1`; `0` for NaN. -/
def Double.sign : Double → Int
  | .finite m _ => m.sign
  | .posInf => 1
  | .negInf => -1
  | .nan => 0

/-- The operator `*` on numbers. -/
def Double.mul : Double → Double → Double
  | .finite m₁ e₁, .finite m₂ e₂ => roundToDouble (m₁ * m₂) (e₁ + e₂)
  | .nan, _ => .nan
  | _, .nan => .nan
  | a, b =>
    if a.sign * b.sign = 0 then .nan
    else if a.sign * b.sign < 0 then .negInf else .posInf

/-- The operator `>` on numbers. -/
def Double.gt : Double → Double → Bool
  | .finite m₁ e₁, .finite m₂ e₂ =>
    let e := min e₁ e₂
    decide (m₂ * 2 ^ (e₂ - e).toNat < m₁ * 2 ^ (e₁ - e).toNat)
  | .nan, _ => false
  | _, .nan => false
  | .posInf, .posInf => false
  | .posInf, _ => true
  | .negInf, _ => false
  | _, .negInf => true
  | _, .posInf => false

/-- Is the finite `m * 2 ^ e` a double, that is, left as it is by rounding. -/
def Double.isDouble : Double → Bool
  | .finite m e =>
    let r := roundToDouble m e
    !r.gt (.finite m e) && !(Double.finite m e).gt r && r != .posInf && r != .negInf
  | _ => true

/-- The exact value of a finite number as a rational; `0` for the others. -/
def Double.toRat : Double → ℚ
  | .finite m e => m * (2 : ℚ) ^ e
  | _ => 0

/-- The literal `0.9`: the double nearest to nine tenths. -/
def Double.pointNine : Double := .finite 8106479329266893 (-53)

/-- The literal `0.1`: the double nearest to one tenth. -/
def Double.pointOne : Double := .finite 7205759403792794 (-56)

/-- The arithmetic of the browser: IEEE-754 doubles, every operation rounded
to nearest.  The conversion of a number to text stays a parameter. -/
def ieeeNumber (toText : Double → String) : JsNumber Double where
  add := Double.add
  sub := Double.sub
  mul := Double.mul
  gt := Double.gt
  pointNine := Double.pointNine
  pointOne := Double.pointOne
  toText := toText

/-- What the window and the layout report while a scroll event is handled:
`window.scrollY`, `window.innerHeight` and the `getBoundingClientRect().top`
of the i-th card and the i-th section. -/
structure Viewport (α : Type) where
  scrollY : α
  innerHeight : α
  cardTop : Nat → α
  sectionTop : Nat → α

/-- The `forEach` of a node list, with the position of each element at hand. -/
def mapIdxFrom {α β : Type} (f : Nat → α → β) : Nat → List α → List β
  | _, [] => []
  | i, x :: xs => f i x :: mapIdxFrom f (i + 1) xs

/-- Lines 77-84 for the i-th card. -/
def revealCard {α : Type} (N : JsNumber α) (v : Viewport α) (i : Nat) (card : Card) : Card :=
  let scrollPosition := v.scrollY
  let cardPosition := N.add (v.cardTop i) v.scrollY
  if N.gt scrollPosition (N.sub cardPosition (N.mul v.innerHeight N.pointNine)) = true then
    { card with classList := classListAdd card.classList "card-visible" }
  else card

/-- Lines 87-93 for the i-th section. -/
def parallaxSection {α : Type} (N : JsNumber α) (v : Viewport α) (i : Nat) (sec : Section) :
    Section :=
  if classListContains sec.classList "bg-light" = true then
    let offset := N.mul (v.sectionTop i) N.pointOne
    { sec with backgroundPositionY := N.toText offset ++ "px" }
  else sec

/-- The scroll listener of lines 72-94. -/
def scrollAnimations {α : Type} (N : JsNumber α) (v : Viewport α) (p : Page) : Page :=
  { p with
    cards := mapIdxFrom (revealCard N v) 0 p.cards
    sections := mapIdxFrom (parallaxSection N v) 0 p.sections }

/-! ## `initResponsiveBehavior` and `adjustTopPadding` (lines 103-147) -/

/-- The call `navbarToggler.click()`: the toggle control receives a click and
the listener of the menu framework reacts on the collapsible region. -/
def clickToggler (p : Page) : Page :=
  match p.navbarToggler with
  | some clicks =>
    { p with
      navbarToggler := some (clicks + 1)
      navbarCollapse := p.navbarCollapse.map p.onTogglerClick }
  | none => p

/-- The scroll listener of lines 112-116. -/
def collapseOnScroll (p : Page) : Page :=
  match p.navbarCollapse with
  | some classList =>
    if classListContains classList "show" = true then clickToggler p else p
  | none => p

/-- The click listener of lines 121-126; `innerWidth` is `window.innerWidth`. -/
def collapseOnLinkClick (innerWidth : Nat) (p : Page) : Page :=
  match p.navbarCollapse with
  | some classList =>
    if innerWidth < 992 ∧ classListContains classList "show" = true then clickToggler p else p
  | none => p

/-- The routine `adjustTopPadding()`. -/
def adjustTopPadding (p : Page) : Page :=
  match p.navbar with
  | some navbarHeight => { p with bodyPaddingTop := toString navbarHeight ++ "px" }
  | none => p

/-- The call `window.addEventListener(type, f)` for a named function `f`: adding the
same function again is ignored. -/
def addNamedListener (listeners : List WindowListener) (l : WindowListener) :
    List WindowListener :=
  if l ∈ listeners then listeners else listeners ++ [l]

/-- The routine `initResponsiveBehavior()`. -/
def initResponsiveBehavior (p : Page) : Page :=
  let p :=
    if p.navbar.isSome = true ∧ p.navbarCollapse.isSome = true ∧ p.navbarToggler.isSome = true then
      { p with
        scrollListeners := p.scrollListeners ++ [WindowListener.collapseOnScroll]
        navLinks := p.navLinks.map (fun link =>
          { link with clickListeners := link.clickListeners ++ [LinkListener.collapseMenu] }) }
    else p
  let p := adjustTopPadding p
  { p with resizeListeners := addNamedListener p.resizeListeners WindowListener.adjustTopPadding }

/-! ## Event dispatch on `window` -/

/-- Run one listener bound to `window`. -/
def runWindowListener {α : Type} (N : JsNumber α) (v : Viewport α) (l : WindowListener)
    (p : Page) : Page :=
  match l with
  | .scrollAnimations => scrollAnimations N v p
  | .collapseOnScroll => collapseOnScroll p
  | .adjustTopPadding => adjustTopPadding p

/-- A `scroll` event on `window`: the listeners run in registration order. -/
def dispatchScroll {α : Type} (N : JsNumber α) (v : Viewport α) (p : Page) : Page :=
  p.scrollListeners.foldl (fun q l => runWindowListener N v l q) p

/-- A `resize` event on `window`. -/
def dispatchResize {α : Type} (N : JsNumber α) (v : Viewport α) (p : Page) : Page :=
  p.resizeListeners.foldl (fun q l => runWindowListener N v l q) p

/-- The routine `initScrollAnimations()`: bind the listener, then line 97
dispatches one `scroll` event. -/
def initScrollAnimations {α : Type} (N : JsNumber α) (v : Viewport α) (p : Page) : Page :=
  dispatchScroll N v
    { p with scrollListeners := p.scrollListeners ++ [WindowListener.scrollAnimations] }

/-! ## `addPageTransitions` (lines 152-176) -/

/-- The selector `a[href^="index"], a[href^="quizzes"], a[href^="games"]`. -/
def isInternalLink (a : Anchor) : Bool :=
  match a.hrefAttr with
  | some h =>
    "index".data.isPrefixOf h.data || "quizzes".data.isPrefixOf h.data ||
      "games".data.isPrefixOf h.data
  | none => false

/-- The click listener of lines 157-171 on a link with the given resolved
`hostname` and `href`. -/
def pageTransitionClick (hostname href : String) (p : Page) : Page :=
  if hostname = p.hostname then
    let targetUrl := href
    { p with
      defaultPrevented := true
      bodyClassList := classListAdd p.bodyClassList "page-transition-out"
      timers := p.timers ++ [{ due := p.now + 300, task := Task.navigate targetUrl }] }
  else p

/-- The routine `addPageTransitions()`. -/
def addPageTransitions (p : Page) : Page :=
  { p with
    anchors := p.anchors.map (fun a =>
      if isInternalLink a = true then
        { a with clickListeners := a.clickListeners ++ [LinkListener.pageTransition] }
      else a)
    bodyClassList := classListAdd p.bodyClassList "page-transition-in" }

/-- Run one click listener bound to a link. -/
def runLinkListener (innerWidth : Nat) (hostname href : String) (l : LinkListener)
    (p : Page) : Page :=
  match l with
  | .collapseMenu => collapseOnLinkClick innerWidth p
  | .pageTransition => pageTransitionClick hostname href p

/-- A click on an `a` element: a fresh event, then its listeners in order. -/
def clickAnchor (innerWidth : Nat) (a : Anchor) (p : Page) : Page :=
  a.clickListeners.foldl (fun q l => runLinkListener innerWidth a.hostname a.href l q)
    { p with defaultPrevented := false }

/-- A click on a navigation link whose resolved `hostname` and `href` are given. -/
def clickNavLink (innerWidth : Nat) (hostname href : String) (link : NavLink) (p : Page) :
    Page :=
  link.clickListeners.foldl (fun q l => runLinkListener innerWidth hostname href l q)
    { p with defaultPrevented := false }

/-! ## `detectColorScheme` (lines 181-198) -/

/-- The listener of lines 189-197, given `e.matches`. -/
def syncDarkMode (eMatches : Bool) (p : Page) : Page :=
  if eMatches = true then
    { p with bodyClassList := classListAdd p.bodyClassList "dark-mode" }
  else
    { p with bodyClassList := classListRemove p.bodyClassList "dark-mode" }

/-- The routine `detectColorScheme()`.  Line 183 guards its use of
`window.matchMedia`, line 189 calls it unguarded. -/
def detectColorScheme (p : Page) : Except JsError Page :=
  let p :=
    match p.darkQuery with
    | some q =>
      if q.isDark = true then
        { p with bodyClassList := classListAdd p.bodyClassList "dark-mode" }
      else p
    | none => p
  match p.darkQuery with
  | some q =>
    .ok { p with
          darkQuery := some
            { q with changeListeners := q.changeListeners ++ [MediaListener.syncDarkMode] } }
  | none => .error JsError.TypeError

/-- A `change` event of the dark-scheme query reporting `eMatches`. -/
def dispatchSchemeChange (eMatches : Bool) (p : Page) : Page :=
  match p.darkQuery with
  | some q =>
    q.changeListeners.foldl (fun r _ => syncDarkMode eMatches r)
      { p with darkQuery := some { q with isDark := eMatches } }
  | none => p

/-- The dark-scheme query list exists and has at least one change listener. -/
def Listening (p : Page) : Prop :=
  ∃ q, p.darkQuery = some q ∧ q.changeListeners ≠ []

/-! ## `showNotification` (lines 219-242) and timers -/

/-- ASCII whitespace, the separators of class tokens: tab, line feed, form
feed, carriage return and space. -/
def isAsciiWhitespace (c : Char) : Bool :=
  c = Char.ofNat 9 || c = Char.ofNat 10 || c = Char.ofNat 12 || c = Char.ofNat 13 ||
    c = Char.ofNat 32

/-- Split at every ASCII whitespace character; segments may be empty. -/
def splitWhitespace : List Char → List (List Char)
  | [] => [[]]
  | c :: cs =>
    if isAsciiWhitespace c = true then [] :: splitWhitespace cs
    else
      match splitWhitespace cs with
      | [] => [[c]]
      | seg :: rest => (c :: seg) :: rest

/-- Keep the first occurrence of every token. -/
def orderedSet : List String → List String
  | [] => []
  | x :: xs => x :: (orderedSet xs).filter (fun y => y ≠ x)

/-- The token set of a `class` attribute value: its whitespace-separated
tokens in order, each once. -/
def classTokens (className : String) : List String :=
  orderedSet
    (((splitWhitespace className.data).filter (fun seg => !seg.isEmpty)).map String.mk)

/-- The element after `classList` has written the token set `tokens`: the
attribute string becomes the tokens joined by one space. -/
def withClassList (tokens : List String) (e : Element) : Element :=
  { e with classList := tokens, className := String.intercalate " " tokens }

/-- Apply `f` to the class list of the body child with identity `node`. -/
def updateClassList (f : List String → List String) (node : Nat) (children : List Element) :
    List Element :=
  children.map (fun e => if e.node = node then withClassList (f e.classList) e else e)

/-- The call `document.body.removeChild(node)`: a `NotFoundError` unless the node is a
child of the body. -/
def removeChild (children : List Element) (node : Nat) : Except JsError (List Element) :=
  if children.any (fun e => decide (e.node = node)) = true then
    .ok (children.filter (fun e => decide (e.node ≠ node)))
  else .error JsError.NotFoundError

/-- The delay a timer gets for the argument `delay`: the host converts the
argument to a signed 32-bit integer, wrapping modulo `2 ^ 32`, and takes a
negative result as `0`. -/
def timerDelay (delay : Nat) : Nat :=
  let wrapped := delay % 2 ^ 32
  if wrapped < 2 ^ 31 then wrapped else 0

/-- The call `setTimeout(task, delay)`: the callback is due `timerDelay delay`
ms from now. -/
def setTimeout (task : Task) (delay : Nat) (p : Page) : Page :=
  { p with timers := p.timers ++ [{ due := p.now + timerDelay delay, task := task }] }

/-- The routine `showNotification(message, type, duration)`; `none` is an
omitted argument, `type` is any string and `duration` a whole number of
milliseconds.  Line 222 assigns the `class` attribute, which sets the token
set to the tokens of the assigned string. -/
def showNotification (message : String) (type : Option String)
    (duration : Option Nat) (p : Page) : Page :=
  let type := type.getD "info"
  let duration := duration.getD 3000
  let notification : Element :=
    { node := p.nextNode
      textContent := message
      className := "notification notification-" ++ type
      classList := classTokens ("notification notification-" ++ type) }
  let p :=
    { p with
      nextNode := p.nextNode + 1
      bodyChildren := p.bodyChildren ++ [notification] }
  let p := setTimeout (Task.showNotificationEnter notification.node) 10 p
  setTimeout (Task.showNotificationClose notification.node) duration p

/-- Run a timer callback. -/
def runTask (task : Task) (p : Page) : Page :=
  match task with
  | .showNotificationEnter node =>
    { p with
      bodyChildren := updateClassList (fun c => classListAdd c "show") node p.bodyChildren }
  | .showNotificationClose node =>
    setTimeout (Task.showNotificationRemove node) 300
      { p with
        bodyChildren :=
          updateClassList (fun c => classListRemove c "show") node p.bodyChildren }
  | .showNotificationRemove node =>
    match removeChild p.bodyChildren node with
    | .ok children => { p with bodyChildren := children }
    | .error e => { p with errors := p.errors ++ [e] }
  | .navigate targetUrl => { p with locationHref := targetUrl }

/-- The pending timer that fires next: earliest deadline, the one registered
first among equal deadlines. -/
def nextDue : List Timer → Option Timer
  | [] => none
  | t :: ts =>
    match nextDue ts with
    | none => some t
    | some u => if u.due < t.due then some u else some t

/-- Fire the next timer if its deadline is not after `limit`. -/
def fireNext (limit : Nat) (p : Page) : Option Page :=
  match nextDue p.timers with
  | some t =>
    if t.due ≤ limit then
      some (runTask t.task { p with now := t.due, timers := p.timers.erase t })
    else none
  | none => none

/-- Timers a callback can lead to, itself included. -/
def taskBudget : Task → Nat
  | .showNotificationClose _ => 2
  | _ => 1

/-- Bound on the number of timers that fire from a queue. -/
def timerBudget (timers : List Timer) : Nat :=
  (timers.map (fun t => taskBudget t.task)).sum

/-- Fire timers due up to `limit`, at most `fuel` of them. -/
def runTimers : Nat → Nat → Page → Page
  | 0, _, p => p
  | fuel + 1, limit, p =>
    match fireNext limit p with
    | some q => runTimers fuel limit q
    | none => p

/-- Let the virtual clock reach `t`: every timer due by then fires. -/
def advanceTo (t : Nat) (p : Page) : Page :=
  let q := runTimers (timerBudget p.timers) t p
  { q with now := max q.now t }

/-- The notification node a timer callback was created for. -/
def taskNode : Task → Option Nat
  | .showNotificationEnter node => some node
  | .showNotificationClose node => some node
  | .showNotificationRemove node => some node
  | .navigate _ => none

/-- The pending timers of the notification with identity `node`, in
registration order. -/
def ownTimers (node : Nat) (timers : List Timer) : List Timer :=
  timers.filter (fun tm => decide (taskNode tm.task = some node))

/-- The body children with identity `node`. -/
def ownElements (node : Nat) (children : List Element) : List Element :=
  children.filter (fun c => decide (c.node = node))

/-- The stages a notification `e`, created with enter deadline `a` and close
deadline `b`, goes through while timers due up to `limit` fire: waiting to
enter, shown (token set extended by `show`), closing (token set as created),
removed. -/
def Lifecycle (e : Element) (a b limit : Nat) (q : Page) : Prop :=
  (ownTimers e.node q.timers =
        [⟨a, Task.showNotificationEnter e.node⟩, ⟨b, Task.showNotificationClose e.node⟩] ∧
      ownElements e.node q.bodyChildren = [e]) ∨
    (a ≤ limit ∧ ownTimers e.node q.timers = [⟨b, Task.showNotificationClose e.node⟩] ∧
      ownElements e.node q.bodyChildren = [withClassList (e.classList ++ ["show"]) e]) ∨
    (b ≤ limit ∧ ownTimers e.node q.timers = [⟨b + 300, Task.showNotificationRemove e.node⟩] ∧
      ownElements e.node q.bodyChildren = [withClassList e.classList e]) ∨
    (b + 300 ≤ limit ∧ ownTimers e.node q.timers = [] ∧
      ownElements e.node q.bodyChildren = [])

/-- Another script detaches the node from the body. -/
def detachNode (node : Nat) (p : Page) : Page :=
  { p with bodyChildren := p.bodyChildren.filter (fun e => decide (e.node ≠ node)) }

/-! ## `initApp` (lines 17-32) -/

/-- The routine `initApp()`. -/
def initApp {α : Type} (N : JsNumber α) (v : Viewport α) (p : Page) : Except JsError Page :=
  let p := activateCurrentNavLink p
  let p := initScrollAnimations N v p
  let p := initResponsiveBehavior p
  let p := addPageTransitions p
  detectColorScheme p

/-- A page without content, at time zero, on host `example.org`. -/
def blankPage : Page where
  pathname := "/"
  hostname := "example.org"
  locationHref := "https://example.org/"
  darkQuery := some { isDark := false, changeListeners := [] }
  navLinks := []
  anchors := []
  cards := []
  sections := []
  navbar := none
  navbarCollapse := none
  navbarToggler := none
  onTogglerClick := fun c => if "show" ∈ c then classListRemove c "show" else classListAdd c "show"
  bodyClassList := []
  bodyPaddingTop := ""
  bodyChildren := []
  nextNode := 0
  scrollListeners := []
  resizeListeners := []
  now := 0
  timers := []
  defaultPrevented := false
  errors := []

/-! ## Sample documents -/

/-- A page at `/about.html` whose navigation holds the same link twice. -/
def twinLinksPage : Page :=
  { blankPage with
    pathname := "/about.html"
    navLinks :=
      [{ href := some "about.html", classList := ["nav-link"], clickListeners := [] },
       { href := some "about.html", classList := ["nav-link"], clickListeners := [] }] }

/-- The blank page after `showNotification('Loading')`: one notification in
flight, its two timers pending. -/
def busyPage : Page :=
  showNotification "Loading" none none blankPage

/-- A link to `quizzes.html` on the host of `blankPage`, not yet wired. -/
def quizLink : Anchor :=
  { hrefAttr := some "quizzes.html"
    hostname := "example.org"
    href := "https://example.org/quizzes.html"
    clickListeners := [] }

/-- A page whose only `a` element is `quizLink`. -/
def quizPage : Page :=
  { blankPage with anchors := [quizLink] }

/-- A page with one hidden card, a navbar 56 pixels high, and no collapsible
region or toggle control. -/
def cardPage : Page :=
  { blankPage with
    cards := [{ classList := ["card"] }]
    navbar := some 56 }

/-- A page with a revealed card and the three parts of the navbar, the menu
expanded. -/
def menuPage : Page :=
  { blankPage with
    cards := [{ classList := ["card", "card-visible"] }]
    navLinks := [{ href := some "index.html", classList := ["nav-link"], clickListeners := [] }]
    navbar := some 56
    navbarCollapse := some ["navbar-collapse", "show"]
    navbarToggler := some 0 }

/-- A conversion of numbers to text that tells nothing apart; the samples
have no section it would apply to. -/
def plainText : Double → String := fun _ => "0"

/-- The viewport at the top of a page 600 pixels high, every card and section
500 pixels below the top. -/
def topViewport : Viewport Double :=
  { scrollY := .finite 0 0
    innerHeight := .finite 600 0
    cardTop := fun _ => .finite 500 0
    sectionTop := fun _ => .finite 500 0 }

/-- A viewport 302 pixels high, scrolled to the double nearest to 0.7, every
card with its bounding-rect top at the double nearest to 271.8. -/
def edgeViewport : Viewport Double :=
  { scrollY := .finite 6305039478318694 (-53)
    innerHeight := .finite 302 0
    cardTop := fun _ => .finite 4781556166872269 (-44)
    sectionTop := fun _ => .finite 0 0 }

/-- A viewport 736 pixels high at the top of the page, every card with its
bounding-rect top at the double nearest to 662.4. -/
def edgeViewportTop : Viewport Double :=
  { scrollY := .finite 0 0
    innerHeight := .finite 736 0
    cardTop := fun _ => .finite 5826532017910579 (-43)
    sectionTop := fun _ => .finite 0 0 }

/-- A page at the site root with a front-page link and a second link, the
second one highlighted by the markup. -/
def homePage : Page :=
  { blankPage with
    pathname := "/"
    navLinks :=
      [{ href := some "index.html", classList := ["nav-link"], clickListeners := [] },
       { href := some "quizzes.html", classList := ["nav-link", "active"],
         clickListeners := [] }] }

/-! # Properties -/

/-! ## Class lists and list helpers -/

theorem mem_classListAdd (cl : List String) (tok t : String) :
    t ∈ classListAdd cl tok ↔ t ∈ cl ∨ t = tok := by
  unfold classListAdd
  split
  · constructor
    · intro h; exact Or.inl h
    · rintro (h | h)
      · exact h
      · subst h; assumption
  · simp

theorem mem_classListRemove (cl : List String) (tok t : String) :
    t ∈ classListRemove cl tok ↔ t ∈ cl ∧ t ≠ tok := by
  simp [classListRemove]

theorem getElem?_updateAt {α : Type} (f : α → α) (i : Nat) (xs : List α) :
    (updateAt f i xs)[i]? = xs[i]?.map f := by
  induction xs generalizing i with
  | nil => simp [updateAt]
  | cons x xs ih =>
    cases i with
    | zero => simp [updateAt]
    | succ i => simpa [updateAt] using ih i

theorem firstIndex_map {α β : Type} (p : β → Bool) (f : α → β) (xs : List α) :
    firstIndex p (xs.map f) = firstIndex (fun x => p (f x)) xs := by
  induction xs with
  | nil => rfl
  | cons x xs ih => simp [firstIndex, ih]

theorem firstIndex_eq_none {α : Type} (p : α → Bool) (xs : List α) :
    firstIndex p xs = none ↔ ∀ x ∈ xs, p x = false := by
  induction xs with
  | nil => simp [firstIndex]
  | cons x xs ih =>
    by_cases hx : p x = true
    · simp [firstIndex, hx]
    · simp [firstIndex, hx, ih]

theorem firstIndex_some {α : Type} (p : α → Bool) (xs : List α) (i : Nat)
    (h : firstIndex p xs = some i) :
    ∃ x, xs[i]? = some x ∧ p x = true ∧
      ∀ j y, j < i → xs[j]? = some y → p y = false := by
  induction xs generalizing i with
  | nil => simp [firstIndex] at h
  | cons x xs ih =>
    by_cases hx : p x = true
    · simp [firstIndex, hx] at h
      subst h
      exact ⟨x, by simp, hx, fun j y hj => absurd hj (Nat.not_lt_zero j)⟩
    · simp [firstIndex, hx] at h
      obtain ⟨k, hk, rfl⟩ := h
      obtain ⟨y, hy, hpy, hfirst⟩ := ih k hk
      refine ⟨y, by simpa using hy, hpy, ?_⟩
      intro j z hj hz
      cases j with
      | zero =>
        simp at hz
        subst hz
        simpa using hx
      | succ j =>
        simp at hz
        exact hfirst j z (by omega) hz

/-! ## The navigation highlighter -/

theorem resetNavLink_href (page : String) (l : NavLink) :
    (resetNavLink page l).href = l.href := by
  unfold resetNavLink
  simp only
  split <;> rfl

theorem resetNavLink_active (page : String) (l : NavLink) :
    "active" ∈ (resetNavLink page l).classList ↔ l.href = some page := by
  unfold resetNavLink
  simp only
  split
  · rename_i h
    simp [mem_classListAdd, h]
  · rename_i h
    simp [mem_classListRemove, h]

theorem activeCount_map_reset (page : String) (links : List NavLink) :
    activeCount (links.map (resetNavLink page)) = matchCount page links := by
  induction links with
  | nil => rfl
  | cons l ls ih =>
    unfold activeCount matchCount at *
    simp only [List.map_cons, List.filter_cons, classListContains] at *
    by_cases h : l.href = some page
    · have := (resetNavLink_active page l).mpr h
      simp [this, h, ih]
    · have := mt (resetNavLink_active page l).mp h
      simp [this, h, ih]

theorem activeCount_updateAt (links : List NavLink) (i : Nat) (l : NavLink)
    (h : links[i]? = some l) :
    activeCount
        (updateAt (fun link => { link with classList := classListAdd link.classList "active" })
          i links) =
      activeCount links + (if "active" ∈ l.classList then 0 else 1) := by
  induction links generalizing i with
  | nil => simp at h
  | cons x xs ih =>
    cases i with
    | zero =>
      simp at h
      subst h
      by_cases hx : "active" ∈ x.classList
      · simp [updateAt, activeCount, classListContains, mem_classListAdd, hx]
      · simp [updateAt, activeCount, classListContains, mem_classListAdd, hx]
    | succ i =>
      simp at h
      have := ih i h
      unfold activeCount at *
      simp only [updateAt, List.filter_cons]
      split <;> simp [this]
      omega

theorem queryHomeLink_map_reset (page : String) (links : List NavLink) :
    queryHomeLink (links.map (resetNavLink page)) = queryHomeLink links := by
  unfold queryHomeLink
  rw [firstIndex_map]
  simp [resetNavLink_href]

theorem matchCount_eq_zero (page : String) (links : List NavLink) :
    matchCount page links = 0 ↔ ∀ l ∈ links, l.href ≠ some page := by
  simp [matchCount, List.filter_eq_nil_iff]

/-- The number of highlighted links after the routine: the links whose `href`
is the segment, and the front-page link on top when the segment is empty. -/
theorem activeCount_activateNavLinks (page : String) (links : List NavLink) :
    activeCount (activateNavLinks page links) =
      matchCount page links +
        (if (page = "" ∨ page = "/") ∧ (∃ l ∈ links, l.href = some "index.html") then 1
          else 0) := by
  unfold activateNavLinks
  simp only
  by_cases hsp : page = "" ∨ page = "/" ∨ page = "index.html"
  · rw [if_pos hsp, queryHomeLink_map_reset]
    cases hq : queryHomeLink links with
    | none =>
      have hnone := (firstIndex_eq_none _ _).mp hq
      have : ¬ ∃ l ∈ links, l.href = some "index.html" := by
        rintro ⟨l, hl, hh⟩
        simpa [hh] using hnone l hl
      simp [activeCount_map_reset, this]
    | some i =>
      obtain ⟨l, hl, hpl, _⟩ := firstIndex_some _ _ _ hq
      have hhref : l.href = some "index.html" := by simpa using hpl
      have hex : ∃ l ∈ links, l.href = some "index.html" :=
        ⟨l, List.getElem?_mem hl, hhref⟩
      have hget : (links.map (resetNavLink page))[i]? = some (resetNavLink page l) := by
        simp [hl]
      simp only []
      rw [activeCount_updateAt _ i _ hget, activeCount_map_reset]
      by_cases hidx : page = "index.html"
      · have h1 : "active" ∈ (resetNavLink page l).classList :=
          (resetNavLink_active page l).mpr (by rw [hhref, hidx])
        have h2 : ¬ (page = "" ∨ page = "/") := by
          subst hidx; decide
        simp [h1, h2]
      · have h1 : "active" ∉ (resetNavLink page l).classList := by
          rw [resetNavLink_active, hhref]
          intro h
          exact hidx (Option.some.inj h).symm
        have h2 : page = "" ∨ page = "/" := by
          rcases hsp with h | h | h
          · exact Or.inl h
          · exact Or.inr h
          · exact absurd h hidx
        simp [h1, h2, hex]
  · rw [if_neg hsp]
    have : ¬ (page = "" ∨ page = "/") := fun h => hsp (by tauto)
    simp [activeCount_map_reset, this]

theorem jsSplit_ne_nil (sep : Char) (cs : List Char) : jsSplit sep cs ≠ [] := by
  cases cs with
  | nil => simp [jsSplit]
  | cons c cs =>
    unfold jsSplit
    split
    · simp
    · split <;> simp

theorem jsSplit_no_sep (sep : Char) (cs : List Char) :
    ∀ seg ∈ jsSplit sep cs, sep ∉ seg := by
  induction cs with
  | nil => simp [jsSplit]
  | cons c cs ih =>
    unfold jsSplit
    split
    · intro seg hseg
      rcases List.mem_cons.mp hseg with h | h
      · subst h; simp
      · exact ih seg h
    · rename_i hc
      split
      · rename_i hnil
        exact absurd hnil (jsSplit_ne_nil sep cs)
      · rename_i seg rest heq
        rw [heq] at ih
        intro s hs
        rcases List.mem_cons.mp hs with h | h
        · subst h
          intro hmem
          rcases List.mem_cons.mp hmem with h' | h'
          · exact hc h'.symm
          · exact ih seg (List.mem_cons_self _ _) h'
        · exact ih s (List.mem_cons_of_mem _ h)

/-- The last path segment is never the string `/`. -/
theorem currentPage_ne_slash (pathname : String) : currentPage pathname ≠ "/" := by
  unfold currentPage jsPop
  cases h : (jsSplit '/' pathname.data).getLast? with
  | none => simp
  | some seg =>
    simp only
    intro heq
    have hmem : seg ∈ jsSplit '/' pathname.data := List.mem_of_getLast?_eq_some h
    have hno := jsSplit_no_sep '/' pathname.data seg hmem
    have : seg = ['/'] := by
      have := congrArg String.data heq
      simpa using this
    rw [this] at hno
    simp at hno

/-- C1, as stated, fails: on a page at `/about.html` whose navigation holds two
links with `href="about.html"`, both links carry `active` after
`activateCurrentNavLink`. -/
theorem activateCurrentNavLink_twin_links_both_active :
    ¬ activeCount (activateCurrentNavLink twinLinksPage).navLinks ≤ 1 := by
  decide

/-- C1, amended: after `activateCurrentNavLink` at most one link of the
navigation set carries `active` exactly when at most one link has the last
path segment as its `href` and, for an empty segment, the set does not hold
both a link with an empty `href` and a link with `href="index.html"`; the
classes the links carried before play no part. -/
theorem activateCurrentNavLink_at_most_one_active (p : Page) :
    activeCount (activateCurrentNavLink p).navLinks ≤ 1 ↔
      matchCount (currentPage p.pathname) p.navLinks ≤ 1 ∧
        (currentPage p.pathname = "" →
          (∀ l ∈ p.navLinks, l.href ≠ some "") ∨
            (∀ l ∈ p.navLinks, l.href ≠ some "index.html")) := by
  have hslash := currentPage_ne_slash p.pathname
  show activeCount (activateNavLinks (currentPage p.pathname) p.navLinks) ≤ 1 ↔ _
  rw [activeCount_activateNavLinks]
  generalize currentPage p.pathname = page at hslash
  by_cases hpage : page = ""
  · subst hpage
    by_cases hex : ∃ l ∈ p.navLinks, l.href = some "index.html"
    · have hnot : ¬ ∀ l ∈ p.navLinks, l.href ≠ some "index.html" := by
        intro h
        obtain ⟨l, hl, hh⟩ := hex
        exact h l hl hh
      simp only [true_or, hex, and_self, if_true, true_implies, hnot, or_false]
      rw [← matchCount_eq_zero]
      omega
    · have hall : ∀ l ∈ p.navLinks, l.href ≠ some "index.html" := by
        intro l hl hh
        exact hex ⟨l, hl, hh⟩
      simp only [hex, and_false, if_false, Nat.add_zero]
      exact ⟨fun h => ⟨h, fun _ => Or.inr hall⟩, fun h => h.1⟩
  · have : ¬ (page = "" ∨ page = "/") := by
      rintro (h | h)
      · exact hpage h
      · exact hslash h
    have h2 : ¬ ((page = "" ∨ page = "/") ∧ ∃ l ∈ p.navLinks, l.href = some "index.html") :=
      fun h => this h.1
    simp only [h2, if_false, Nat.add_zero]
    exact ⟨fun h => ⟨h, fun h' => absurd h' hpage⟩, fun h => h.1⟩

/-- C1 witness: on the sample front page the precondition of the amended claim
holds and one link at most is highlighted. -/
theorem activateCurrentNavLink_at_most_one_active_witness :
    activeCount (activateCurrentNavLink homePage).navLinks ≤ 1 :=
  (activateCurrentNavLink_at_most_one_active homePage).mpr (by decide)

/-- C2: when the navigation set holds a link with `href="index.html"` and the
last path segment is empty, `/` or `index.html`, the front-page link (the
first such link in document order, which is the one `querySelector` returns)
carries `active` after `activateCurrentNavLink`, whatever classes the links
carried before; its `href` is unchanged. -/
theorem activateCurrentNavLink_home_active (p : Page)
    (hpage : currentPage p.pathname = "" ∨ currentPage p.pathname = "/" ∨
      currentPage p.pathname = "index.html")
    (hhome : ∃ l ∈ p.navLinks, l.href = some "index.html") :
    ∃ (i : Nat) (before after : NavLink),
      p.navLinks[i]? = some before ∧ before.href = some "index.html" ∧
      (∀ (j : Nat) (l : NavLink), j < i → p.navLinks[j]? = some l → l.href ≠ some "index.html") ∧
      (activateCurrentNavLink p).navLinks[i]? = some after ∧
      after.href = some "index.html" ∧ "active" ∈ after.classList := by
  show ∃ (i : Nat) (before after : NavLink), _ ∧ _ ∧ _ ∧
    (activateNavLinks (currentPage p.pathname) p.navLinks)[i]? = some after ∧ _
  generalize currentPage p.pathname = page at hpage
  cases hq : queryHomeLink p.navLinks with
  | none =>
    exfalso
    obtain ⟨l, hl, hh⟩ := hhome
    have := (firstIndex_eq_none _ _).mp hq l hl
    simp [hh] at this
  | some i =>
    obtain ⟨l, hl, hpl, hfirst⟩ := firstIndex_some _ _ _ hq
    have hhref : l.href = some "index.html" := by simpa using hpl
    refine ⟨i, l, { resetNavLink page l with
        classList := classListAdd (resetNavLink page l).classList "active" },
      hl, hhref, ?_, ?_, ?_, ?_⟩
    · intro j l' hj hl'
      simpa using hfirst j l' hj hl'
    · unfold activateNavLinks
      simp only
      rw [if_pos hpage, queryHomeLink_map_reset, hq]
      simp only
      rw [getElem?_updateAt]
      simp [hl]
    · simpa [resetNavLink_href] using hhref
    · simp [mem_classListAdd]

/-- C2 witness: the sample front page at path `/`. -/
theorem activateCurrentNavLink_home_active_witness :
    ∃ (i : Nat) (before after : NavLink),
      homePage.navLinks[i]? = some before ∧ before.href = some "index.html" ∧
      (∀ (j : Nat) (l : NavLink), j < i → homePage.navLinks[j]? = some l → l.href ≠ some "index.html") ∧
      (activateCurrentNavLink homePage).navLinks[i]? = some after ∧
      after.href = some "index.html" ∧ "active" ∈ after.classList :=
  activateCurrentNavLink_home_active homePage (by decide) (by decide)

/-! ## Notifications and timers -/

theorem removeChild_absent (node : Nat) (children : List Element)
    (habsent : ∀ c ∈ children, c.node ≠ node) :
    removeChild children node = .error JsError.NotFoundError := by
  unfold removeChild
  have h1 : ¬ (children.any (fun c => decide (c.node = node)) = true) := by
    simpa using habsent
  rw [if_neg h1]

/-! ## The timer queue -/

theorem nextDue_eq_none (l : List Timer) : nextDue l = none ↔ l = [] := by
  cases l with
  | nil => simp [nextDue]
  | cons t ts =>
    simp only [nextDue]
    cases nextDue ts with
    | none => simp
    | some u => by_cases h : u.due < t.due <;> simp [h]

/-- The timer that fires next splits the queue: strictly later deadlines
before it, no earlier deadline after it. -/
theorem nextDue_split (l : List Timer) (tm : Timer) (h : nextDue l = some tm) :
    ∃ l₁ l₂, l = l₁ ++ tm :: l₂ ∧ (∀ x ∈ l₁, tm.due < x.due) ∧ (∀ x ∈ l₂, tm.due ≤ x.due) := by
  induction l generalizing tm with
  | nil => simp [nextDue] at h
  | cons t ts ih =>
    simp only [nextDue] at h
    cases hts : nextDue ts with
    | none =>
      rw [hts] at h
      simp only [Option.some.injEq] at h
      subst h
      have : ts = [] := (nextDue_eq_none ts).mp hts
      subst this
      exact ⟨[], [], rfl, by simp, by simp⟩
    | some u =>
      rw [hts] at h
      obtain ⟨l₁, l₂, hl, h₁, h₂⟩ := ih u hts
      by_cases hlt : u.due < t.due
      · simp only [hlt, if_true, Option.some.injEq] at h
        subst h
        refine ⟨t :: l₁, l₂, by simp [hl], ?_, h₂⟩
        intro x hx
        rcases List.mem_cons.mp hx with rfl | hx
        · exact hlt
        · exact h₁ x hx
      · simp only [hlt, if_false, Option.some.injEq] at h
        subst h
        refine ⟨[], ts, rfl, by simp, ?_⟩
        intro x hx
        rw [hl] at hx
        rcases List.mem_append.mp hx with hx | hx
        · have := h₁ x hx
          omega
        · rcases List.mem_cons.mp hx with rfl | hx
          · omega
          · have := h₂ x hx
            omega

theorem fireNext_some (limit : Nat) (q q' : Page) (h : fireNext limit q = some q') :
    ∃ tm l₁ l₂, q.timers = l₁ ++ tm :: l₂ ∧ (∀ x ∈ l₁, tm.due < x.due) ∧ tm.due ≤ limit ∧
      q' = runTask tm.task { q with now := tm.due, timers := l₁ ++ l₂ } := by
  unfold fireNext at h
  cases hn : nextDue q.timers with
  | none => rw [hn] at h; simp at h
  | some tm =>
    rw [hn] at h
    by_cases hdue : tm.due ≤ limit
    · simp only [hdue, if_true, Option.some.injEq] at h
      obtain ⟨l₁, l₂, hl, h₁, _⟩ := nextDue_split _ _ hn
      refine ⟨tm, l₁, l₂, hl, h₁, hdue, ?_⟩
      have hnot : tm ∉ l₁ := fun hmem => Nat.lt_irrefl _ (h₁ tm hmem)
      rw [← h, hl, List.erase_append_right _ hnot, List.erase_cons_head]
    · simp [hdue] at h

theorem fireNext_none (limit : Nat) (q : Page) (h : fireNext limit q = none) :
    ∀ x ∈ q.timers, limit < x.due := by
  unfold fireNext at h
  cases hn : nextDue q.timers with
  | none =>
    rw [(nextDue_eq_none _).mp hn]
    simp
  | some tm =>
    rw [hn] at h
    by_cases hdue : tm.due ≤ limit
    · simp [hdue] at h
    · obtain ⟨l₁, l₂, hl, h₁, h₂⟩ := nextDue_split _ _ hn
      intro x hx
      rw [hl] at hx
      rcases List.mem_append.mp hx with hx | hx
      · have := h₁ x hx
        omega
      · rcases List.mem_cons.mp hx with rfl | hx
        · omega
        · have := h₂ x hx
          omega

theorem taskBudget_pos (task : Task) : 0 < taskBudget task := by
  cases task <;> simp [taskBudget]

theorem timerBudget_eq_zero (l : List Timer) (h : timerBudget l = 0) : l = [] := by
  cases l with
  | nil => rfl
  | cons t ts =>
    have := taskBudget_pos t.task
    simp [timerBudget] at h
    omega

/-- Firing a timer uses up one unit of the budget. -/
theorem fireNext_budget (limit : Nat) (q q' : Page) (h : fireNext limit q = some q') :
    timerBudget q'.timers + 1 = timerBudget q.timers := by
  obtain ⟨tm, l₁, l₂, hl, _, _, rfl⟩ := fireNext_some limit q q' h
  rw [hl]
  obtain ⟨due, task⟩ := tm
  cases task <;>
    simp [runTask, setTimeout, timerBudget, taskBudget] <;>
    first
      | omega
      | (split <;> simp <;> omega)

/-- With the budget of the queue as fuel, no timer due by `limit` is left. -/
theorem runTimers_complete (fuel limit : Nat) (q : Page) (h : timerBudget q.timers ≤ fuel) :
    fireNext limit (runTimers fuel limit q) = none := by
  induction fuel generalizing q with
  | zero =>
    have : q.timers = [] := timerBudget_eq_zero _ (by omega)
    simp [runTimers, fireNext, this, nextDue]
  | succ fuel ih =>
    cases hf : fireNext limit q with
    | none => simp [runTimers, hf]
    | some q' =>
      have := fireNext_budget limit q q' hf
      simp only [runTimers, hf]
      exact ih q' (by omega)

/-! ## One notification among others -/

theorem ownTimers_append (node : Nat) (l₁ l₂ : List Timer) :
    ownTimers node (l₁ ++ l₂) = ownTimers node l₁ ++ ownTimers node l₂ := by
  simp [ownTimers]

theorem ownTimers_cons_own (node : Nat) (tm : Timer) (l : List Timer)
    (h : taskNode tm.task = some node) :
    ownTimers node (tm :: l) = tm :: ownTimers node l := by
  simp [ownTimers, h]

theorem ownTimers_cons_foreign (node : Nat) (tm : Timer) (l : List Timer)
    (h : taskNode tm.task ≠ some node) :
    ownTimers node (tm :: l) = ownTimers node l := by
  simp [ownTimers, h]

theorem ownTimers_mem (node : Nat) (tm : Timer) (l : List Timer)
    (h : tm ∈ ownTimers node l) : tm ∈ l := by
  unfold ownTimers at h
  exact (List.mem_filter.mp h).1

theorem withClassList_node (tokens : List String) (e : Element) :
    (withClassList tokens e).node = e.node := rfl

theorem timerDelay_of_lt (delay : Nat) (h : delay < 2 ^ 31) : timerDelay delay = delay := by
  unfold timerDelay
  have h' : delay % 2 ^ 32 = delay := Nat.mod_eq_of_lt (by omega)
  simp only [h']
  rw [if_pos h]

theorem withClassList_withClassList (s t : List String) (e : Element) :
    withClassList s (withClassList t e) = withClassList s e := rfl

theorem withClassList_classList (tokens : List String) (e : Element) :
    (withClassList tokens e).classList = tokens := rfl

theorem ownElements_updateClassList_foreign (f : List String → List String) (node m : Nat)
    (children : List Element) (h : m ≠ node) :
    ownElements node (updateClassList f m children) = ownElements node children := by
  induction children with
  | nil => rfl
  | cons c cs ih =>
    unfold ownElements updateClassList at *
    have h' : ¬ node = m := fun x => h x.symm
    by_cases hc : c.node = m
    · have : c.node ≠ node := by omega
      simp [List.filter_cons, hc, this, h, ih, withClassList_node]
    · by_cases hn : c.node = node
      · simp [List.filter_cons, hn, ih, h']
      · simp [List.filter_cons, hc, hn, ih]

theorem ownElements_updateClassList_own (f : List String → List String) (node : Nat)
    (children : List Element) :
    ownElements node (updateClassList f node children) =
      (ownElements node children).map (fun e => withClassList (f e.classList) e) := by
  induction children with
  | nil => rfl
  | cons c cs ih =>
    unfold ownElements updateClassList at *
    by_cases hc : c.node = node
    · simp [List.filter_cons, hc, ih, withClassList_node]
    · simp [List.filter_cons, hc, ih]

theorem ownElements_removeChild_foreign (node m : Nat) (children : List Element)
    (h : m ≠ node) :
    ownElements node (children.filter (fun e => decide (e.node ≠ m))) =
      ownElements node children := by
  unfold ownElements
  rw [List.filter_filter]
  apply List.filter_congr
  intro c _
  by_cases hc : c.node = node
  · have : ¬ node = m := fun x => h x.symm
    simp [hc, this]
  · simp [hc]

theorem ownElements_removeChild_own (node : Nat) (children : List Element) :
    ownElements node (children.filter (fun e => decide (e.node ≠ node))) = [] := by
  unfold ownElements
  rw [List.filter_filter, List.filter_eq_nil_iff]
  intro c _
  simp

/-- A callback created for another notification, or for a navigation, leaves
the timers and the element of this notification alone. -/
theorem runTask_foreign (node : Nat) (task : Task) (q : Page)
    (h : taskNode task ≠ some node) :
    ownTimers node (runTask task q).timers = ownTimers node q.timers ∧
      ownElements node (runTask task q).bodyChildren = ownElements node q.bodyChildren := by
  cases task with
  | showNotificationEnter m =>
    have hm : m ≠ node := fun hm => h (by simp [taskNode, hm])
    refine ⟨rfl, ?_⟩
    simp only [runTask]
    exact ownElements_updateClassList_foreign _ _ _ _ hm
  | showNotificationClose m =>
    have hm : m ≠ node := fun hm => h (by simp [taskNode, hm])
    refine ⟨?_, ?_⟩
    · simp only [runTask, setTimeout, ownTimers_append]
      rw [ownTimers_cons_foreign _ _ _ (by simpa [taskNode] using hm)]
      simp [ownTimers]
    · simp only [runTask, setTimeout]
      exact ownElements_updateClassList_foreign _ _ _ _ hm
  | showNotificationRemove m =>
    have hm : m ≠ node := fun hm => h (by simp [taskNode, hm])
    simp only [runTask, removeChild]
    split
    · rename_i children heq
      split at heq
      · simp only [Except.ok.injEq] at heq
        subst heq
        exact ⟨rfl, ownElements_removeChild_foreign _ _ _ hm⟩
      · simp at heq
    · exact ⟨rfl, rfl⟩
  | navigate url => exact ⟨rfl, rfl⟩

theorem classListAdd_show (classList : List String) (h : "show" ∉ classList) :
    classListAdd classList "show" = classList ++ ["show"] := by
  simp [classListAdd, h]

theorem classListRemove_show (classList : List String) (h : "show" ∉ classList) :
    classListRemove (classList ++ ["show"]) "show" = classList := by
  unfold classListRemove
  rw [List.filter_append]
  have : classList.filter (fun c => decide (c ≠ "show")) = classList := by
    rw [List.filter_eq_self]
    intro c hc
    have : c ≠ "show" := fun heq => h (heq ▸ hc)
    simpa using this
  have hne : ∀ c ∈ classList, ¬ c = "show" := fun c hc heq => h (heq ▸ hc)
  simpa [this] using hne

/-- Firing one timer takes a notification from one stage of its lifecycle to
the same or the next one. -/
theorem fireNext_lifecycle (e : Element) (a b limit : Nat) (q q' : Page)
    (hshow : "show" ∉ e.classList) (hab : a ≤ b)
    (hstage : Lifecycle e a b limit q) (hfire : fireNext limit q = some q') :
    Lifecycle e a b limit q' := by
  obtain ⟨tm, l₁, l₂, hl, hbefore, hdue, rfl⟩ := fireNext_some limit q q' hfire
  by_cases hown : taskNode tm.task = some e.node
  · have hsplit : ownTimers e.node q.timers =
        ownTimers e.node l₁ ++ tm :: ownTimers e.node l₂ := by
      rw [hl, ownTimers_append, ownTimers_cons_own _ _ _ hown]
    have hrest : ownTimers e.node (l₁ ++ l₂) = ownTimers e.node l₁ ++ ownTimers e.node l₂ :=
      ownTimers_append _ _ _
    rcases hstage with ⟨ht, he⟩ | ⟨ha, ht, he⟩ | ⟨hb, ht, he⟩ | ⟨_, ht, _⟩
    · -- waiting to enter: the enter timer is the one that fires
      rw [hsplit] at ht
      cases h₁ : ownTimers e.node l₁ with
      | nil =>
        rw [h₁] at ht hrest
        simp only [List.nil_append, List.cons.injEq] at ht hrest
        obtain ⟨rfl, ht₂⟩ := ht
        refine Or.inr (Or.inl ⟨hdue, ?_, ?_⟩)
        · simp only [runTask]
          rw [hrest, ht₂]
        · simp only [runTask]
          rw [ownElements_updateClassList_own, he]
          simp [classListAdd_show _ hshow]
      | cons x xs =>
        rw [h₁] at ht
        simp only [List.cons_append, List.cons.injEq] at ht
        obtain ⟨rfl, ht₂⟩ := ht
        cases xs with
        | nil =>
          simp only [List.nil_append, List.cons.injEq] at ht₂
          obtain ⟨rfl, _⟩ := ht₂
          have hmem : (⟨a, Task.showNotificationEnter e.node⟩ : Timer) ∈ l₁ :=
            ownTimers_mem e.node _ _ (by rw [h₁]; simp)
          have := hbefore _ hmem
          simp at this
          omega
        | cons y ys =>
          simp at ht₂
    · -- shown: the close timer fires and schedules the removal
      rw [hsplit] at ht
      cases h₁ : ownTimers e.node l₁ with
      | nil =>
        rw [h₁] at ht hrest
        simp only [List.nil_append, List.cons.injEq] at ht hrest
        obtain ⟨rfl, ht₂⟩ := ht
        refine Or.inr (Or.inr (Or.inl ⟨hdue, ?_, ?_⟩))
        · simp only [runTask, setTimeout, ownTimers_append]
          rw [h₁, ht₂]
          simp [ownTimers, taskNode, timerDelay_of_lt 300 (by norm_num)]
        · simp only [runTask, setTimeout]
          rw [ownElements_updateClassList_own, he]
          simp [classListRemove_show _ hshow, withClassList_withClassList,
            withClassList_classList]
      | cons x xs =>
        rw [h₁] at ht
        simp at ht
    · -- closing: the removal timer fires
      rw [hsplit] at ht
      cases h₁ : ownTimers e.node l₁ with
      | nil =>
        rw [h₁] at ht hrest
        simp only [List.nil_append, List.cons.injEq] at ht hrest
        obtain ⟨rfl, ht₂⟩ := ht
        have hany : q.bodyChildren.any (fun c => decide (c.node = e.node)) = true := by
          have hmem : withClassList e.classList e ∈ ownElements e.node q.bodyChildren := by
            rw [he]; simp
          unfold ownElements at hmem
          have := (List.mem_filter.mp hmem).1
          simp only [List.any_eq_true]
          exact ⟨_, this, by simp [withClassList_node]⟩
        refine Or.inr (Or.inr (Or.inr ⟨hdue, ?_, ?_⟩))
        · simp only [runTask, removeChild, hany, if_true]
          rw [hrest, ht₂]
        · simp only [runTask, removeChild, hany, if_true]
          exact ownElements_removeChild_own _ _
      | cons x xs =>
        rw [h₁] at ht
        simp at ht
    · -- removed: no timer of this notification is left
      rw [hsplit] at ht
      simp at ht
  · have hkeep := runTask_foreign e.node tm.task
      { q with now := tm.due, timers := l₁ ++ l₂ } hown
    have htimers : ownTimers e.node (l₁ ++ l₂) = ownTimers e.node q.timers := by
      rw [hl, ownTimers_append, ownTimers_append, ownTimers_cons_foreign _ _ _ hown]
    unfold Lifecycle
    rw [hkeep.1, hkeep.2]
    simp only [htimers]
    exact hstage

theorem runTimers_lifecycle (e : Element) (a b limit fuel : Nat) (q : Page)
    (hshow : "show" ∉ e.classList) (hab : a ≤ b) (hstage : Lifecycle e a b limit q) :
    Lifecycle e a b limit (runTimers fuel limit q) := by
  induction fuel generalizing q with
  | zero => exact hstage
  | succ fuel ih =>
    cases hf : fireNext limit q with
    | none => simpa [runTimers, hf] using hstage
    | some q' =>
      simp only [runTimers, hf]
      exact ih q' (fireNext_lifecycle e a b limit q q' hshow hab hstage hf)

/-- Where a notification stands once every timer due by `limit` has fired. -/
theorem lifecycle_settled (e : Element) (a b limit : Nat) (q : Page) (hab : a ≤ b)
    (hstage : Lifecycle e a b limit q) (hidle : ∀ x ∈ q.timers, limit < x.due) :
    ownElements e.node q.bodyChildren =
      if limit < a then [e]
      else if limit < b then [withClassList (e.classList ++ ["show"]) e]
      else if limit < b + 300 then [withClassList e.classList e]
      else [] := by
  rcases hstage with ⟨ht, he⟩ | ⟨ha, ht, he⟩ | ⟨hb, ht, he⟩ | ⟨hc, _, he⟩
  · have := hidle _ (ownTimers_mem e.node ⟨a, Task.showNotificationEnter e.node⟩ _
      (by rw [ht]; simp))
    simp at this
    rw [if_pos this, he]
  · have := hidle _ (ownTimers_mem e.node ⟨b, Task.showNotificationClose e.node⟩ _
      (by rw [ht]; simp))
    simp at this
    rw [if_neg (by omega), if_pos this, he]
  · have := hidle _ (ownTimers_mem e.node ⟨b + 300, Task.showNotificationRemove e.node⟩ _
      (by rw [ht]; simp))
    simp at this
    rw [if_neg (by omega), if_neg (by omega), if_pos this, he]
  · rw [if_neg (by omega), if_neg (by omega), if_neg (by omega), he]

theorem ownElements_append_fresh (e : Element) (children : List Element)
    (hfresh : ∀ c ∈ children, c.node ≠ e.node) :
    ownElements e.node (children ++ [e]) = [e] := by
  unfold ownElements
  rw [List.filter_append]
  have : children.filter (fun c => decide (c.node = e.node)) = [] := by
    rw [List.filter_eq_nil_iff]
    intro c hc
    simpa using hfresh c hc
  simp [this]

theorem ownTimers_others (node : Nat) (timers : List Timer)
    (hothers : ∀ tm ∈ timers, ∃ m, taskNode tm.task = some m ∧ m ≠ node) :
    ownTimers node timers = [] := by
  unfold ownTimers
  rw [List.filter_eq_nil_iff]
  intro tm htm
  obtain ⟨m, hm, hne⟩ := hothers tm htm
  simp [hm, hne]

/-- For the documented types the class string has two tokens, and `show` is
not one of them. -/
theorem classTokens_documented (type : String)
    (h : type = "success" ∨ type = "error" ∨ type = "info") :
    classTokens ("notification notification-" ++ type) =
        ["notification", "notification-" ++ type] ∧
      "show" ∉ classTokens ("notification notification-" ++ type) := by
  rcases h with rfl | rfl | rfl <;> decide

/-- C4, as stated, fails outside a range of durations.  With the duration
2147483648 the host takes the delay as a negative 32-bit integer and closes at
once: the element is removed at 300 ms and is not in the body at 600 ms, long
before the duration has passed.  With the duration 5 the closing step at 5 ms
finds no `show` class to remove, the class is added at 10 ms, and at 100 ms
the element still carries `show`. -/
theorem showNotification_duration_out_of_range :
    (advanceTo 600 (showNotification "Saved" (some "success") (some 2147483648)
        blankPage)).bodyChildren = [] ∧
      (advanceTo 100 (showNotification "Saved" (some "success") (some 5)
        blankPage)).bodyChildren =
        [{ node := 0, textContent := "Saved",
           className := "notification notification-success show",
           classList := ["notification", "notification-success", "show"] }] := by
  constructor <;> decide

/-- C4, amended: for every message, every type (default `info`) for which
`show` is not itself a class token of `notification notification-<type>`, and
every whole duration `d` (default 3000) with `10 ≤ d < 2 ^ 31`,
`showNotification` appends exactly one new element to the body, with the
message as text content and class `notification notification-<type>`;
whatever timers of earlier notifications are pending, the element is in the
body without `show` before 10 ms, carries `show` from 10 ms after the call
until `d` ms, stays in the body without it from `d` ms until `d + 300` ms, and
is out of the body from `d + 300` ms on. -/
theorem showNotification_timeline (message : String) (type : Option String)
    (duration : Option Nat) (p : Page)
    (hfresh : ∀ c ∈ p.bodyChildren, c.node ≠ p.nextNode)
    (hothers : ∀ tm ∈ p.timers, ∃ m, taskNode tm.task = some m ∧ m ≠ p.nextNode)
    (htype : "show" ∉ classTokens ("notification notification-" ++ type.getD "info"))
    (hduration : 10 ≤ duration.getD 3000) (hrange : duration.getD 3000 < 2 ^ 31) :
    ∃ e : Element,
      (showNotification message type duration p).bodyChildren = p.bodyChildren ++ [e] ∧
      e.node = p.nextNode ∧
      e.textContent = message ∧
      e.className = "notification notification-" ++ type.getD "info" ∧
      e.classList = classTokens ("notification notification-" ++ type.getD "info") ∧
      "show" ∉ e.classList ∧
      ∀ t : Nat,
        (t < 10 →
          ownElements e.node
              (advanceTo (p.now + t) (showNotification message type duration p)).bodyChildren =
            [e]) ∧
        (10 ≤ t → t < duration.getD 3000 →
          ownElements e.node
              (advanceTo (p.now + t) (showNotification message type duration p)).bodyChildren =
            [withClassList (e.classList ++ ["show"]) e]) ∧
        (duration.getD 3000 ≤ t → t < duration.getD 3000 + 300 →
          ownElements e.node
              (advanceTo (p.now + t) (showNotification message type duration p)).bodyChildren =
            [withClassList e.classList e]) ∧
        (duration.getD 3000 + 300 ≤ t →
          ownElements e.node
              (advanceTo (p.now + t) (showNotification message type duration p)).bodyChildren =
            []) := by
  have hsame : showNotification message type duration p =
      showNotification message (some (type.getD "info")) (some (duration.getD 3000)) p := by
    simp [showNotification]
  rw [hsame]
  generalize type.getD "info" = ty at htype
  generalize duration.getD 3000 = d at hduration hrange
  have hd : timerDelay d = d := timerDelay_of_lt d hrange
  have h10 : timerDelay 10 = 10 := timerDelay_of_lt 10 (by norm_num)
  refine ⟨⟨p.nextNode, message, "notification notification-" ++ ty,
      classTokens ("notification notification-" ++ ty)⟩, ?_, rfl, rfl, rfl, rfl, htype, ?_⟩
  · simp [showNotification, setTimeout]
  · intro t
    have hstart : Lifecycle ⟨p.nextNode, message, "notification notification-" ++ ty,
          classTokens ("notification notification-" ++ ty)⟩
        (p.now + 10) (p.now + d) (p.now + t)
        (showNotification message (some ty) (some d) p) := by
      refine Or.inl ⟨?_, ?_⟩
      · simp only [showNotification, setTimeout, Option.getD_some, ownTimers_append,
          List.append_assoc, hd, h10]
        rw [ownTimers_others _ _ hothers]
        simp [ownTimers, taskNode]
      · simp only [showNotification, setTimeout, Option.getD_some]
        exact ownElements_append_fresh ⟨p.nextNode, message, _, _⟩ p.bodyChildren hfresh
    have hrun := runTimers_lifecycle _ _ _ (p.now + t)
      (timerBudget (showNotification message (some ty) (some d) p).timers) _ htype
      (by omega) hstart
    have hidle := fireNext_none _ _ (runTimers_complete
      (timerBudget (showNotification message (some ty) (some d) p).timers) (p.now + t)
      (showNotification message (some ty) (some d) p) (Nat.le_refl _))
    have hsettled := lifecycle_settled _ _ _ _ _ (by omega) hrun hidle
    simp only [advanceTo]
    rw [hsettled]
    refine ⟨?_, ?_, ?_, ?_⟩
    · intro h
      rw [if_pos (by omega)]
    · intro h1 h2
      rw [if_neg (by omega), if_pos (by omega)]
    · intro h1 h2
      rw [if_neg (by omega), if_neg (by omega), if_pos (by omega)]
    · intro h
      rw [if_neg (by omega), if_neg (by omega), if_neg (by omega)]

/-- C4 witness: `showNotification('Saved', 'success', 1000)` while an earlier
notification with the default duration is in flight: the new element, node 1,
is shown at 10 ms, hidden at 1000 ms and removed at 1300 ms. -/
theorem showNotification_timeline_witness :
    ownElements 1 (advanceTo 9 (showNotification "Saved" (some "success")
        (some 1000) busyPage)).bodyChildren =
        [⟨1, "Saved", "notification notification-success",
          ["notification", "notification-success"]⟩] ∧
      ownElements 1 (advanceTo 10 (showNotification "Saved" (some "success")
        (some 1000) busyPage)).bodyChildren =
        [⟨1, "Saved", "notification notification-success show",
          ["notification", "notification-success", "show"]⟩] ∧
      ownElements 1 (advanceTo 1000 (showNotification "Saved" (some "success")
        (some 1000) busyPage)).bodyChildren =
        [⟨1, "Saved", "notification notification-success",
          ["notification", "notification-success"]⟩] ∧
      ownElements 1 (advanceTo 1300 (showNotification "Saved" (some "success")
        (some 1000) busyPage)).bodyChildren = [] := by
  obtain ⟨e, happend, _, _, _, _, _, htime⟩ :=
    showNotification_timeline "Saved" (some "success") (some 1000) busyPage
      (by decide) (by decide) (by decide) (by decide) (by decide)
  have he : e = ⟨1, "Saved", "notification notification-success",
      ["notification", "notification-success"]⟩ := by
    have hlast := congrArg List.getLast? happend
    rw [List.getLast?_append, List.getLast?_singleton] at hlast
    simp only [Option.or_some] at hlast
    have hval : (showNotification "Saved" (some "success") (some 1000)
        busyPage).bodyChildren.getLast? =
          some ⟨1, "Saved", "notification notification-success",
            ["notification", "notification-success"]⟩ := by
      decide
    rw [hval] at hlast
    exact (Option.some.inj hlast).symm
  subst he
  exact ⟨(htime 9).1 (by decide), (htime 10).2.1 (by decide) (by decide),
    (htime 1000).2.2.1 (by decide) (by decide), (htime 1300).2.2.2 (by decide)⟩

/-- C3, as stated, fails: when another script has taken the notification out
of the body before the final timer fires, the removal at 1300 ms raises a
`NotFoundError` where the claim promises none. -/
theorem showNotification_removal_after_detach_raises :
    (detachNode 0 (advanceTo 1000 (showNotification "Saved" (some "success")
        (some 1000) blankPage))).errors = [] ∧
      (advanceTo 1300 (detachNode 0 (advanceTo 1000 (showNotification "Saved"
        (some "success") (some 1000) blankPage)))).errors =
        [JsError.NotFoundError] := by
  decide

/-- C3, amended: when the final removal timer of a notification fires while
the notification element is no longer a child of the body, the removal step
leaves the document as it is, but it is not guarded: `removeChild` raises a
`NotFoundError`, which is reported as an uncaught exception of the timer
callback.  The timer itself is used up and the clock stands at its
deadline. -/
theorem showNotificationRemove_absent (p : Page) (node due limit : Nat)
    (hnext : nextDue p.timers = some ⟨due, Task.showNotificationRemove node⟩)
    (hdue : due ≤ limit) (habsent : ∀ c ∈ p.bodyChildren, c.node ≠ node) :
    runTask (Task.showNotificationRemove node) p =
        { p with errors := p.errors ++ [JsError.NotFoundError] } ∧
      fireNext limit p =
        some { p with
               now := due
               timers := p.timers.erase ⟨due, Task.showNotificationRemove node⟩
               errors := p.errors ++ [JsError.NotFoundError] } := by
  constructor
  · simp [runTask, removeChild_absent node p.bodyChildren habsent]
  · unfold fireNext
    rw [hnext]
    simp [hdue, runTask, removeChild_absent node p.bodyChildren habsent]

/-- C3 witness: the notification of `showNotification('Saved', 'success', 1000)`
is detached at 1000 ms; the removal timer due at 1300 ms then raises the
error and the body stays empty. -/
theorem showNotificationRemove_absent_witness :
    (fireNext 1300 (detachNode 0 (advanceTo 1000 (showNotification "Saved"
        (some "success") (some 1000) blankPage)))).map
        (fun q => (q.errors, q.bodyChildren, q.timers, q.now)) =
      some ([JsError.NotFoundError], [], [], 1300) := by
  rw [(showNotificationRemove_absent
    (detachNode 0 (advanceTo 1000 (showNotification "Saved"
      (some "success") (some 1000) blankPage))) 0 1300 1300
    (by decide) (by decide) (by decide)).2]
  decide

/-! ## Page transitions -/

/-- C5: a link matched by the selector of `addPageTransitions` (its `href`
attribute starts with `index`, `quizzes` or `games`) gets the transition
listener, and a click on it calls `preventDefault` exactly when the link's
hostname is the page's hostname.  In that case the body gains
`page-transition-out` within the handler and one timer is added, due 300 ms
later, whose callback sets the location to the link's resolved `href`;
otherwise the page is left as it was: no class, no timer, default navigation
not suppressed. -/
theorem pageTransition_click (p₀ : Page) (a₀ : Anchor) (ha : a₀ ∈ p₀.anchors)
    (hinternal : isInternalLink a₀ = true) (hnew : a₀.clickListeners = []) :
    ∃ a ∈ (addPageTransitions p₀).anchors,
      a = { a₀ with clickListeners := [LinkListener.pageTransition] } ∧
      ∀ (innerWidth : Nat) (p : Page),
        ((clickAnchor innerWidth a p).defaultPrevented = true ↔ a.hostname = p.hostname) ∧
        (a.hostname = p.hostname →
          (clickAnchor innerWidth a p).bodyClassList =
              classListAdd p.bodyClassList "page-transition-out" ∧
            "page-transition-out" ∈ (clickAnchor innerWidth a p).bodyClassList ∧
            (clickAnchor innerWidth a p).timers =
              p.timers ++ [{ due := p.now + 300, task := Task.navigate a.href }] ∧
            (runTask (Task.navigate a.href) (clickAnchor innerWidth a p)).locationHref =
              a.href) ∧
        (a.hostname ≠ p.hostname →
          (clickAnchor innerWidth a p).bodyClassList = p.bodyClassList ∧
            (clickAnchor innerWidth a p).timers = p.timers ∧
            (clickAnchor innerWidth a p).defaultPrevented = false) := by
  refine ⟨{ a₀ with clickListeners := [LinkListener.pageTransition] }, ?_, rfl, ?_⟩
  · unfold addPageTransitions
    simp only [List.mem_map]
    exact ⟨a₀, ha, by simp [hinternal, hnew]⟩
  · intro innerWidth p
    by_cases hhost : a₀.hostname = p.hostname
    · simp [clickAnchor, runLinkListener, pageTransitionClick, hhost, runTask,
        mem_classListAdd]
    · simp [clickAnchor, runLinkListener, pageTransitionClick, hhost]

/-- C5 witness: the link `quizzes.html` of the sample page, on the page's own
host. -/
theorem pageTransition_click_witness :
    ∃ a ∈ (addPageTransitions quizPage).anchors,
      a = { quizLink with clickListeners := [LinkListener.pageTransition] } ∧
      ∀ (innerWidth : Nat) (p : Page),
        ((clickAnchor innerWidth a p).defaultPrevented = true ↔ a.hostname = p.hostname) ∧
        (a.hostname = p.hostname →
          (clickAnchor innerWidth a p).bodyClassList =
              classListAdd p.bodyClassList "page-transition-out" ∧
            "page-transition-out" ∈ (clickAnchor innerWidth a p).bodyClassList ∧
            (clickAnchor innerWidth a p).timers =
              p.timers ++ [{ due := p.now + 300, task := Task.navigate a.href }] ∧
            (runTask (Task.navigate a.href) (clickAnchor innerWidth a p)).locationHref =
              a.href) ∧
        (a.hostname ≠ p.hostname →
          (clickAnchor innerWidth a p).bodyClassList = p.bodyClassList ∧
            (clickAnchor innerWidth a p).timers = p.timers ∧
            (clickAnchor innerWidth a p).defaultPrevented = false) :=
  pageTransition_click quizPage quizLink (List.mem_singleton.mpr rfl) (by decide) rfl

/-! ## Colour scheme -/

theorem syncDarkMode_mem (e : Bool) (p : Page) :
    "dark-mode" ∈ (syncDarkMode e p).bodyClassList ↔ e = true := by
  cases e <;> simp [syncDarkMode, mem_classListAdd, mem_classListRemove]

theorem syncDarkMode_darkQuery (e : Bool) (p : Page) :
    (syncDarkMode e p).darkQuery = p.darkQuery := by
  cases e <;> rfl

theorem foldl_syncDarkMode_darkQuery (e : Bool) (ls : List MediaListener) (p : Page) :
    (ls.foldl (fun r _ => syncDarkMode e r) p).darkQuery = p.darkQuery := by
  induction ls generalizing p with
  | nil => rfl
  | cons l ls ih => simp [List.foldl_cons, ih, syncDarkMode_darkQuery]

theorem foldl_syncDarkMode_mem (e : Bool) (ls : List MediaListener) (hne : ls ≠ [])
    (p : Page) :
    "dark-mode" ∈ (ls.foldl (fun r _ => syncDarkMode e r) p).bodyClassList ↔ e = true := by
  induction ls generalizing p with
  | nil => exact absurd rfl hne
  | cons l ls ih =>
    cases ls with
    | nil => simpa using syncDarkMode_mem e p
    | cons l' ls' => simpa [List.foldl_cons] using ih (by simp) (syncDarkMode e p)

theorem dispatchSchemeChange_listening (e : Bool) (p : Page) (h : Listening p) :
    Listening (dispatchSchemeChange e p) ∧
      ("dark-mode" ∈ (dispatchSchemeChange e p).bodyClassList ↔ e = true) := by
  obtain ⟨q, hq, hne⟩ := h
  unfold dispatchSchemeChange
  rw [hq]
  simp only
  refine ⟨⟨{ q with isDark := e }, ?_, hne⟩, foldl_syncDarkMode_mem e _ hne _⟩
  rw [foldl_syncDarkMode_darkQuery]

theorem foldl_dispatchSchemeChange_listening (events : List Bool) (p : Page)
    (h : Listening p) :
    Listening (events.foldl (fun r e => dispatchSchemeChange e r) p) := by
  induction events generalizing p with
  | nil => exact h
  | cons e es ih => exact ih _ (dispatchSchemeChange_listening e p h).1

/-- C6: once `detectColorScheme` has run, after any non-empty sequence of
preference-change notifications the body carries `dark-mode` exactly when the
last notification reported a dark preference, whatever the initial preference
and the earlier classes of the body. -/
theorem detectColorScheme_sync (p : Page) (q₀ : MediaQueryList)
    (hquery : p.darkQuery = some q₀) (events : List Bool) (hne : events ≠ []) :
    ∃ p', detectColorScheme p = .ok p' ∧
      ("dark-mode" ∈ (events.foldl (fun r e => dispatchSchemeChange e r) p').bodyClassList ↔
        events.getLast hne = true) := by
  have hlisten : ∀ p', detectColorScheme p = .ok p' → Listening p' := by
    intro p' hp'
    unfold detectColorScheme at hp'
    rw [hquery] at hp'
    by_cases hd : q₀.isDark = true
    · simp [hd, hquery] at hp'
      subst hp'
      exact ⟨_, rfl, by simp⟩
    · simp [hd, hquery] at hp'
      subst hp'
      exact ⟨_, rfl, by simp⟩
  have hok : ∃ p', detectColorScheme p = .ok p' := by
    unfold detectColorScheme
    rw [hquery]
    by_cases hd : q₀.isDark = true
    · simp [hd, hquery]
    · simp [hd, hquery]
  obtain ⟨p', hp'⟩ := hok
  refine ⟨p', hp', ?_⟩
  have hsplit := List.dropLast_append_getLast hne
  conv_lhs => rw [← hsplit]
  rw [List.foldl_append]
  simp only [List.foldl_cons, List.foldl_nil]
  exact (dispatchSchemeChange_listening _ _
    (foldl_dispatchSchemeChange_listening _ _ (hlisten p' hp'))).2

/-- C6 witness: a page that starts dark, then reports light, dark, light. -/
theorem detectColorScheme_sync_witness :
    ∃ p', detectColorScheme
        { blankPage with darkQuery := some { isDark := true, changeListeners := [] } } =
          .ok p' ∧
      ("dark-mode" ∈
          ([false, true, false].foldl (fun r e => dispatchSchemeChange e r) p').bodyClassList ↔
        [false, true, false].getLast (by decide) = true) :=
  detectColorScheme_sync _ { isDark := true, changeListeners := [] } rfl
    [false, true, false] (by decide)

/-! ## Scroll animations -/

theorem getElem?_mapIdxFrom {α β : Type} (f : Nat → α → β) (k i : Nat) (xs : List α) :
    (mapIdxFrom f k xs)[i]? = xs[i]?.map (f (k + i)) := by
  induction xs generalizing k i with
  | nil => simp [mapIdxFrom]
  | cons x xs ih =>
    cases i with
    | zero => simp [mapIdxFrom]
    | succ i =>
      simp only [mapIdxFrom, List.getElem?_cons_succ]
      rw [ih, show k + 1 + i = k + (i + 1) by omega]

theorem revealCard_keeps_visible {α : Type} (N : JsNumber α) (v : Viewport α) (i : Nat)
    (card : Card) (h : "card-visible" ∈ card.classList) :
    "card-visible" ∈ (revealCard N v i card).classList := by
  unfold revealCard
  simp only
  split
  · simp [mem_classListAdd, h]
  · exact h

/-! ## Double arithmetic -/

theorem two_zpow_split (e₁ e : Int) (h : e ≤ e₁) :
    (2 : ℚ) ^ e₁ = ((2 ^ (e₁ - e).toNat : Nat) : ℚ) * (2 : ℚ) ^ e := by
  have hnat : ((e₁ - e).toNat : Int) = e₁ - e := Int.toNat_of_nonneg (by omega)
  have : e₁ = ((e₁ - e).toNat : Int) + e := by omega
  conv_lhs => rw [this]
  rw [zpow_add₀ (by norm_num : (2 : ℚ) ≠ 0), zpow_natCast]
  push_cast
  rfl

/-- The comparison of two finite numbers is the comparison of their exact
values. -/
theorem Double.gt_finite (m₁ e₁ m₂ e₂ : Int) :
    Double.gt (.finite m₁ e₁) (.finite m₂ e₂) = true ↔
      (Double.finite m₁ e₁).toRat > (Double.finite m₂ e₂).toRat := by
  simp only [Double.gt, Double.toRat, decide_eq_true_eq, gt_iff_lt]
  have h₁ := two_zpow_split e₁ (min e₁ e₂) (min_le_left _ _)
  have h₂ := two_zpow_split e₂ (min e₁ e₂) (min_le_right _ _)
  have hpos : (0 : ℚ) < (2 : ℚ) ^ (min e₁ e₂) := zpow_pos (by norm_num) _
  rw [h₁, h₂, ← mul_assoc, ← mul_assoc, mul_lt_mul_right hpos]
  constructor
  · intro h
    exact_mod_cast h
  · intro h
    exact_mod_cast h

theorem roundHalfEven_aux (n P q r : Nat) (hdm : P * q + r = n) (hlt : r < P) :
    2 * ((if 2 * r < P then q else if P < 2 * r then q + 1
        else if q % 2 = 0 then q else q + 1) * P) ≤ 2 * n + P ∧
      2 * n ≤ 2 * ((if 2 * r < P then q else if P < 2 * r then q + 1
        else if q % 2 = 0 then q else q + 1) * P) + P := by
  have h1 : q * P = P * q := Nat.mul_comm _ _
  have h2 : (q + 1) * P = P * q + P := by ring
  split_ifs <;> simp only [h1, h2] <;> omega

theorem roundHalfEven_near (n k : Nat) :
    2 * (roundHalfEven n k * 2 ^ k) ≤ 2 * n + 2 ^ k ∧
      2 * n ≤ 2 * (roundHalfEven n k * 2 ^ k) + 2 ^ k :=
  roundHalfEven_aux n (2 ^ k) (n / 2 ^ k) (n % 2 ^ k) (Nat.div_add_mod n (2 ^ k))
    (Nat.mod_lt n (pow_pos (by norm_num) k))

/-- Rounding to a double moves a value by half a unit in the last place of
the result at most. -/
theorem roundToDouble_error (m e n t : Int) (h : roundToDouble m e = .finite n t) :
    |(n : ℚ) * 2 ^ t - m * 2 ^ e| ≤ 2 ^ t / 2 := by
  unfold roundToDouble at h
  by_cases hm : m = 0
  · simp only [hm, if_true, Double.finite.injEq] at h
    obtain ⟨rfl, rfl⟩ := h
    simp [hm]
  · simp only [hm, if_false] at h
    generalize max ((bitLength m.natAbs : Int) - 1 + e - 52) (-1074) = t' at h
    generalize hn : (if t' ≤ e then m.natAbs * 2 ^ (e - t').toNat
      else roundHalfEven m.natAbs (t' - e).toNat) = n' at h
    by_cases hov : (bitLength n' : Int) + t' > 1024
    · rw [if_pos hov] at h
      split_ifs at h
    · rw [if_neg hov] at h
      simp only [Double.finite.injEq] at h
      obtain ⟨hnn, rfl⟩ := h
      have hpos : (0 : ℚ) < 2 ^ t' := zpow_pos (by norm_num) _
      -- reduce to the magnitudes
      have hmag : |(n : ℚ) * 2 ^ t' - m * 2 ^ e| =
          |(n' : ℚ) * 2 ^ t' - (m.natAbs : ℚ) * 2 ^ e| := by
        by_cases hneg : m < 0
        · rw [if_pos hneg] at hnn
          have hmabs : (m : ℚ) = -(m.natAbs : ℚ) := by
            have hq : (m : ℚ) < 0 := by exact_mod_cast hneg
            rw [Nat.cast_natAbs, Int.cast_abs, abs_of_neg hq, neg_neg]
          rw [← hnn, hmabs]
          push_cast
          rw [← abs_neg]
          congr 1
          ring
        · rw [if_neg hneg] at hnn
          have hmabs : (m : ℚ) = (m.natAbs : ℚ) := by
            have hq : (0 : ℚ) ≤ m := by exact_mod_cast (not_lt.mp hneg)
            rw [Nat.cast_natAbs, Int.cast_abs, abs_of_nonneg hq]
          rw [← hnn, hmabs]
          push_cast
          rfl
      rw [hmag]
      by_cases hle : t' ≤ e
      · rw [if_pos hle] at hn
        rw [two_zpow_split e t' hle, ← hn]
        push_cast
        have : (m.natAbs : ℚ) * 2 ^ (e - t').toNat * 2 ^ t' -
            (m.natAbs : ℚ) * (2 ^ (e - t').toNat * 2 ^ t') = 0 := by ring
        rw [this, abs_zero]
        positivity
      · rw [if_neg hle] at hn
        have hnear := roundHalfEven_near m.natAbs (t' - e).toNat
        rw [hn] at hnear
        have hsplit := two_zpow_split t' e (by omega)
        rw [hsplit]
        have hpe : (0 : ℚ) < 2 ^ e := zpow_pos (by norm_num) _
        obtain ⟨hup, hdown⟩ := hnear
        have hup' : (2 : ℚ) * (n' * 2 ^ (t' - e).toNat) ≤ 2 * m.natAbs + 2 ^ (t' - e).toNat := by
          exact_mod_cast hup
        have hdown' : (2 : ℚ) * m.natAbs ≤ 2 * (n' * 2 ^ (t' - e).toNat) + 2 ^ (t' - e).toNat := by
          exact_mod_cast hdown
        push_cast
        rw [abs_le]
        constructor
        · nlinarith
        · nlinarith

theorem bitLengthAux_bounds (fuel n : Nat) (hfuel : n ≤ fuel) (hn : 0 < n) :
    2 ^ (bitLengthAux fuel n - 1) ≤ n ∧ n < 2 ^ bitLengthAux fuel n := by
  induction fuel generalizing n with
  | zero => omega
  | succ fuel ih =>
    have hne : n ≠ 0 := by omega
    simp only [bitLengthAux, hne, if_false, Nat.add_sub_cancel]
    by_cases hhalf : n / 2 = 0
    · have h1 : n = 1 := by omega
      subst h1
      cases fuel <;> simp [bitLengthAux]
    · obtain ⟨hlow, hhigh⟩ := ih (n / 2) (by omega) (by omega)
      have hb : 0 < bitLengthAux fuel (n / 2) := by
        cases fuel with
        | zero => omega
        | succ f => simp [bitLengthAux, hhalf]
      have hpow : 2 ^ bitLengthAux fuel (n / 2) = 2 * 2 ^ (bitLengthAux fuel (n / 2) - 1) := by
        rw [← pow_succ']
        congr 1
        omega
      constructor
      · rw [hpow]
        omega
      · rw [pow_succ]
        omega

/-- The binary digits of a positive number: `2 ^ (bitLength n - 1) ≤ n < 2 ^ bitLength n`. -/
theorem bitLength_bounds (n : Nat) (hn : 0 < n) :
    2 ^ (bitLength n - 1) ≤ n ∧ n < 2 ^ bitLength n :=
  bitLengthAux_bounds n n (Nat.le_refl n) hn

theorem le_roundHalfEven (n k : Nat) : n / 2 ^ k ≤ roundHalfEven n k := by
  unfold roundHalfEven
  simp only
  split_ifs <;> omega

/-- A rounded value keeps 53 significant bits unless it is subnormal: the
result `n * 2 ^ t` has `2 ^ 52 ≤ |n|` or the least exponent `t = -1074`. -/
theorem roundToDouble_precision (m e n t : Int) (hm : m ≠ 0)
    (h : roundToDouble m e = .finite n t) :
    -1074 ≤ t ∧ (t = -1074 ∨ 2 ^ 52 ≤ n.natAbs) := by
  unfold roundToDouble at h
  simp only [hm, if_false] at h
  obtain ⟨hlow, hhigh⟩ := bitLength_bounds m.natAbs (by omega)
  generalize hL : bitLength m.natAbs = L at h hlow hhigh
  have hLpos : 0 < L := by
    rcases Nat.eq_zero_or_pos L with h0 | h0
    · subst h0
      simp at hhigh
      omega
    · exact h0
  generalize ht : max ((L : Int) - 1 + e - 52) (-1074) = t' at h
  generalize hn : (if t' ≤ e then m.natAbs * 2 ^ (e - t').toNat
    else roundHalfEven m.natAbs (t' - e).toNat) = n' at h
  by_cases hov : (bitLength n' : Int) + t' > 1024
  · rw [if_pos hov] at h
    split_ifs at h
  · rw [if_neg hov] at h
    simp only [Double.finite.injEq] at h
    obtain ⟨hnn, rfl⟩ := h
    have hnat : n.natAbs = n' := by
      rw [← hnn]
      split_ifs <;> simp
    refine ⟨by omega, ?_⟩
    by_cases hsub : t' = -1074
    · exact Or.inl hsub
    · right
      have ht' : t' = (L : Int) - 1 + e - 52 := by omega
      rw [hnat, ← hn]
      by_cases hle : t' ≤ e
      · rw [if_pos hle]
        have hk : (e - t').toNat + (L - 1) = 52 := by omega
        calc 2 ^ 52 = 2 ^ (L - 1) * 2 ^ (e - t').toNat := by
              rw [← pow_add, Nat.add_comm, hk]
          _ ≤ m.natAbs * 2 ^ (e - t').toNat := Nat.mul_le_mul_right _ hlow
      · rw [if_neg hle]
        have hk : 52 + (t' - e).toNat = L - 1 := by omega
        refine le_trans ?_ (le_roundHalfEven _ _)
        rw [Nat.le_div_iff_mul_le (pow_pos (by norm_num) _), ← pow_add, hk]
        exact hlow

/-- A finite sum of two finite numbers is the exact sum of their values, moved
by half a unit in the last place of the result at most. -/
theorem Double.add_error (m₁ e₁ m₂ e₂ n t : Int)
    (h : (Double.finite m₁ e₁).add (.finite m₂ e₂) = .finite n t) :
    |(Double.finite n t).toRat -
        ((Double.finite m₁ e₁).toRat + (Double.finite m₂ e₂).toRat)| ≤ 2 ^ t / 2 := by
  simp only [Double.add] at h
  have herr := roundToDouble_error _ _ n t h
  have h₁ := two_zpow_split e₁ (min e₁ e₂) (min_le_left _ _)
  have h₂ := two_zpow_split e₂ (min e₁ e₂) (min_le_right _ _)
  simp only [Double.toRat]
  rw [h₁, h₂]
  push_cast at herr ⊢
  have : (m₁ : ℚ) * (2 ^ (e₁ - min e₁ e₂).toNat * 2 ^ min e₁ e₂) +
      m₂ * (2 ^ (e₂ - min e₁ e₂).toNat * 2 ^ min e₁ e₂) =
      (m₁ * 2 ^ (e₁ - min e₁ e₂).toNat + m₂ * 2 ^ (e₂ - min e₁ e₂).toNat) * 2 ^ min e₁ e₂ := by
    ring
  rw [this]
  exact herr

/-- A finite difference of two finite numbers is the exact difference of their
values, moved by half a unit in the last place of the result at most. -/
theorem Double.sub_error (m₁ e₁ m₂ e₂ n t : Int)
    (h : (Double.finite m₁ e₁).sub (.finite m₂ e₂) = .finite n t) :
    |(Double.finite n t).toRat -
        ((Double.finite m₁ e₁).toRat - (Double.finite m₂ e₂).toRat)| ≤ 2 ^ t / 2 := by
  have := Double.add_error m₁ e₁ (-m₂) e₂ n t h
  simp only [Double.toRat] at this ⊢
  push_cast at this
  have hrw : (m₁ : ℚ) * 2 ^ e₁ - m₂ * 2 ^ e₂ = m₁ * 2 ^ e₁ + -m₂ * 2 ^ e₂ := by ring
  rw [hrw]
  exact this

/-- A finite product of two finite numbers is the exact product of their
values, moved by half a unit in the last place of the result at most. -/
theorem Double.mul_error (m₁ e₁ m₂ e₂ n t : Int)
    (h : (Double.finite m₁ e₁).mul (.finite m₂ e₂) = .finite n t) :
    |(Double.finite n t).toRat -
        (Double.finite m₁ e₁).toRat * (Double.finite m₂ e₂).toRat| ≤ 2 ^ t / 2 := by
  simp only [Double.mul] at h
  have herr := roundToDouble_error _ _ n t h
  simp only [Double.toRat]
  rw [zpow_add₀ (by norm_num : (2 : ℚ) ≠ 0)] at herr
  push_cast at herr
  have : (m₁ : ℚ) * 2 ^ e₁ * (m₂ * 2 ^ e₂) = m₁ * m₂ * (2 ^ e₁ * 2 ^ e₂) := by ring
  rw [this]
  exact herr

/-! ## The scroll handler on doubles -/

/-- The literal `0.9` of the model is a double and lies within half a unit in
the last place, `2 ^ (-54)`, of nine tenths. -/
theorem pointNine_nearest :
    Double.pointNine.isDouble = true ∧
      |Double.pointNine.toRat - 9 / 10| ≤ (2 : ℚ) ^ (-54 : Int) := by
  refine ⟨by decide, ?_⟩
  norm_num [Double.pointNine, Double.toRat, abs_le]

/-- The sample viewports hold the doubles nearest to 0.7, 271.8 and 662.4. -/
theorem edgeViewport_nearest :
    |edgeViewport.scrollY.toRat - 7 / 10| ≤ (2 : ℚ) ^ (-54 : Int) ∧
      |(edgeViewport.cardTop 0).toRat - 2718 / 10| ≤ (2 : ℚ) ^ (-45 : Int) ∧
      |(edgeViewportTop.cardTop 0).toRat - 6624 / 10| ≤ (2 : ℚ) ^ (-44 : Int) := by
  refine ⟨?_, ?_, ?_⟩ <;>
    norm_num [edgeViewport, edgeViewportTop, Double.toRat, abs_le]

/-- A rounding boundary in the other direction: at scroll position 0, height
736 and a card top at the double nearest to 662.4, the inequality
`s > c - 0.9 * h` holds of the exact values, but the handler computes `0 > 0`
and leaves the card hidden. -/
theorem scrollAnimations_rounding_keeps_card_hidden :
    edgeViewportTop.scrollY.toRat >
        ((edgeViewportTop.cardTop 0).toRat + edgeViewportTop.scrollY.toRat) -
          0.9 * edgeViewportTop.innerHeight.toRat ∧
      (runWindowListener (ieeeNumber plainText) edgeViewportTop
        WindowListener.scrollAnimations cardPage).cards = [{ classList := ["card"] }] := by
  refine ⟨?_, by decide⟩
  norm_num [edgeViewportTop, Double.toRat]

/-- C7, as stated, fails at a rounding boundary.  Take the scroll position
`s = 0.7`, the viewport height `h = 302` and a card whose bounding-rect top is
271.8, each as the nearest double.  Then `c - 0.9 * h` is at least `s` (in
decimals `272.5 - 271.8 = 0.7`, and a little more for the exact values of the
doubles), so `s > c - 0.9 * h` is false; but the handler computes the sum, the
product and the difference in doubles, gets a difference just below `s`, and
reveals the card. -/
theorem scrollAnimations_rounding_reveals_card :
    edgeViewport.scrollY.isDouble = true ∧ edgeViewport.innerHeight.isDouble = true ∧
      (edgeViewport.cardTop 0).isDouble = true ∧
      ¬ (edgeViewport.scrollY.toRat >
        ((edgeViewport.cardTop 0).toRat + edgeViewport.scrollY.toRat) -
          0.9 * edgeViewport.innerHeight.toRat) ∧
      (runWindowListener (ieeeNumber plainText) edgeViewport WindowListener.scrollAnimations
        cardPage).cards = [{ classList := ["card", "card-visible"] }] := by
  refine ⟨by decide, by decide, by decide, ?_, by decide⟩
  norm_num [edgeViewport, Double.toRat]

/-- C7, amended: for a scroll position `s`, a viewport height `h` and a card
with bounding-rect top `r`, a run of the scroll handler of
`initScrollAnimations` applies `card-visible` to the card exactly when
`s > c - h * 0.9` holds in the double arithmetic of the browser: `c = r + s`,
`0.9` is the double nearest to nine tenths, and the sum, the product and the
difference are each rounded to the nearest double (`Double.add_error`,
`Double.mul_error`, `Double.sub_error`), the comparison being exact
(`Double.gt_finite`).  A card that did not carry the class carries it
afterwards if and only if that comparison holds; otherwise the card is left
as it is. -/
theorem scrollAnimations_reveals_card (toText : Double → String) (v : Viewport Double)
    (p : Page) (i : Nat) (card : Card) (hcard : p.cards[i]? = some card) :
    ∃ card',
      (runWindowListener (ieeeNumber toText) v WindowListener.scrollAnimations p).cards[i]? =
        some card' ∧
      (Double.gt v.scrollY
          (Double.sub (Double.add (v.cardTop i) v.scrollY)
            (Double.mul v.innerHeight Double.pointNine)) = true →
        card'.classList = classListAdd card.classList "card-visible") ∧
      (Double.gt v.scrollY
          (Double.sub (Double.add (v.cardTop i) v.scrollY)
            (Double.mul v.innerHeight Double.pointNine)) = false →
        card' = card) ∧
      ("card-visible" ∉ card.classList →
        ("card-visible" ∈ card'.classList ↔
          Double.gt v.scrollY
            (Double.sub (Double.add (v.cardTop i) v.scrollY)
              (Double.mul v.innerHeight Double.pointNine)) = true)) := by
  refine ⟨revealCard (ieeeNumber toText) v i card, ?_, ?_, ?_, ?_⟩
  · simp [runWindowListener, scrollAnimations, getElem?_mapIdxFrom, hcard]
  · intro h
    simp [revealCard, ieeeNumber, h]
  · intro h
    simp [revealCard, ieeeNumber, h]
  · intro hnot
    by_cases h : Double.gt v.scrollY
        (Double.sub (Double.add (v.cardTop i) v.scrollY)
          (Double.mul v.innerHeight Double.pointNine)) = true
    · simp [revealCard, ieeeNumber, h, mem_classListAdd]
    · simp [revealCard, ieeeNumber, h, hnot]

/-- C7 witness: at scroll position 0 in a viewport 600 pixels high, a hidden
card 500 pixels down is revealed: `600 * 0.9` rounds to 540 and
`0 > 500 - 540`. -/
theorem scrollAnimations_reveals_card_witness :
    ∃ card', (runWindowListener (ieeeNumber plainText) topViewport
        WindowListener.scrollAnimations cardPage).cards[0]? = some card' ∧
      card'.classList = ["card", "card-visible"] := by
  obtain ⟨card', hget, hadd, _, _⟩ :=
    scrollAnimations_reveals_card plainText topViewport cardPage 0 { classList := ["card"] } rfl
  refine ⟨card', hget, ?_⟩
  rw [hadd (by decide)]
  decide

theorem runWindowListener_keeps_visible {α : Type} (N : JsNumber α) (v : Viewport α)
    (l : WindowListener) (p : Page) (i : Nat)
    (h : ∃ card, p.cards[i]? = some card ∧ "card-visible" ∈ card.classList) :
    ∃ card, (runWindowListener N v l p).cards[i]? = some card ∧
      "card-visible" ∈ card.classList := by
  obtain ⟨card, hcard, hvis⟩ := h
  cases l with
  | scrollAnimations =>
    refine ⟨revealCard N v i card, ?_, revealCard_keeps_visible N v i card hvis⟩
    simp [runWindowListener, scrollAnimations, getElem?_mapIdxFrom, hcard]
  | collapseOnScroll =>
    refine ⟨card, ?_, hvis⟩
    simp only [runWindowListener, collapseOnScroll]
    split
    · split
      · unfold clickToggler
        split <;> exact hcard
      · exact hcard
    · exact hcard
  | adjustTopPadding =>
    refine ⟨card, ?_, hvis⟩
    simp only [runWindowListener, adjustTopPadding]
    split <;> exact hcard

theorem dispatchScroll_keeps_visible {α : Type} (N : JsNumber α) (v : Viewport α)
    (p : Page) (i : Nat)
    (h : ∃ card, p.cards[i]? = some card ∧ "card-visible" ∈ card.classList) :
    ∃ card, (dispatchScroll N v p).cards[i]? = some card ∧
      "card-visible" ∈ card.classList := by
  unfold dispatchScroll
  generalize p.scrollListeners = ls
  induction ls generalizing p with
  | nil => exact h
  | cons l ls ih => exact ih _ (runWindowListener_keeps_visible N v l p i h)

theorem foldl_dispatchScroll_keeps_visible {α : Type} (N : JsNumber α)
    (events : List (Viewport α)) (p : Page) (i : Nat)
    (h : ∃ card, p.cards[i]? = some card ∧ "card-visible" ∈ card.classList) :
    ∃ card, (events.foldl (fun q v => dispatchScroll N v q) p).cards[i]? = some card ∧
      "card-visible" ∈ card.classList := by
  induction events generalizing p with
  | nil => exact h
  | cons v vs ih => exact ih _ (dispatchScroll_keeps_visible N v p i h)

/-- C8: a card that carries `card-visible` still carries it after each scroll
event of every subsequent sequence of scroll events (that is, after the first
`k` of them, for every `k`), whatever the scroll positions, card positions and
viewport heights, and whichever of the script's scroll listeners (the one of
`initScrollAnimations`, the one of `initResponsiveBehavior`) are bound. -/
theorem card_visible_monotone {α : Type} (N : JsNumber α) (p : Page) (i : Nat) (card : Card)
    (hcard : p.cards[i]? = some card) (hvisible : "card-visible" ∈ card.classList)
    (events : List (Viewport α)) (k : Nat) :
    ∃ card', ((events.take k).foldl (fun q v => dispatchScroll N v q) p).cards[i]? =
        some card' ∧
      "card-visible" ∈ card'.classList :=
  foldl_dispatchScroll_keeps_visible N (events.take k) p i ⟨card, hcard, hvisible⟩

/-- C8 witness: the revealed card of the sample page, with both scroll
listeners bound, after the first and after the second of two scroll events. -/
theorem card_visible_monotone_witness :
    (∃ card',
      (([topViewport, topViewport].take 1).foldl (fun q v => dispatchScroll (ieeeNumber plainText) v q)
        (initResponsiveBehavior (initScrollAnimations (ieeeNumber plainText) topViewport menuPage))).cards[0]? =
          some card' ∧
      "card-visible" ∈ card'.classList) ∧
    ∃ card',
      (([topViewport, topViewport].take 2).foldl (fun q v => dispatchScroll (ieeeNumber plainText) v q)
        (initResponsiveBehavior (initScrollAnimations (ieeeNumber plainText) topViewport menuPage))).cards[0]? =
          some card' ∧
      "card-visible" ∈ card'.classList := by
  have hcard : (initResponsiveBehavior
      (initScrollAnimations (ieeeNumber plainText) topViewport menuPage)).cards[0]? =
        some { classList := ["card", "card-visible"] } := by
    decide
  exact ⟨card_visible_monotone (ieeeNumber plainText) _ 0 _ hcard (by decide) [topViewport, topViewport] 1,
    card_visible_monotone (ieeeNumber plainText) _ 0 _ hcard (by decide) [topViewport, topViewport] 2⟩

/-! ## Responsive navbar -/

/-- C9: when navbar, collapsible region and toggle control exist,
`initResponsiveBehavior` binds the collapsing listener to `scroll` and to every
navigation link.  The scroll listener, and with it a scroll event on a page
with the two scroll listeners of the script, clicks the toggle control exactly
when the collapsible region carries `show`; the link listener, and with it a
click on a navigation link, clicks it exactly when the viewport width is below
992 and the region carries `show`, so not at width 992.  A listener that does
not click the control leaves the page as it is. -/
theorem initResponsiveBehavior_collapse_wiring (p : Page) (height : Nat)
    (region : List String) (clicks₀ : Nat) (hnavbar : p.navbar = some height)
    (hcollapse : p.navbarCollapse = some region) (htoggler : p.navbarToggler = some clicks₀) :
    (initResponsiveBehavior p).scrollListeners =
        p.scrollListeners ++ [WindowListener.collapseOnScroll] ∧
      (initResponsiveBehavior p).navLinks =
        p.navLinks.map (fun link =>
          { link with clickListeners := link.clickListeners ++ [LinkListener.collapseMenu] }) ∧
      ∀ (q : Page) (classList : List String) (clicks : Nat),
        q.navbarCollapse = some classList → q.navbarToggler = some clicks →
        (∀ (α : Type) (N : JsNumber α) (v : Viewport α),
          ((runWindowListener N v WindowListener.collapseOnScroll q).navbarToggler =
              some (clicks + 1) ↔ "show" ∈ classList) ∧
          ("show" ∉ classList →
            runWindowListener N v WindowListener.collapseOnScroll q = q) ∧
          (q.scrollListeners =
              [WindowListener.scrollAnimations, WindowListener.collapseOnScroll] →
            ((dispatchScroll N v q).navbarToggler = some (clicks + 1) ↔
              "show" ∈ classList))) ∧
        (∀ (innerWidth : Nat) (hostname href : String),
          ((runLinkListener innerWidth hostname href LinkListener.collapseMenu q).navbarToggler =
              some (clicks + 1) ↔ (innerWidth < 992 ∧ "show" ∈ classList)) ∧
          (¬ (innerWidth < 992 ∧ "show" ∈ classList) →
            runLinkListener innerWidth hostname href LinkListener.collapseMenu q = q) ∧
          (∀ link : NavLink, link.clickListeners = [LinkListener.collapseMenu] →
            ((clickNavLink innerWidth hostname href link q).navbarToggler =
              some (clicks + 1) ↔ (innerWidth < 992 ∧ "show" ∈ classList)))) ∧
        (∀ (hostname href : String),
          runLinkListener 992 hostname href LinkListener.collapseMenu q = q) := by
  refine ⟨?_, ?_, ?_⟩
  · simp [initResponsiveBehavior, adjustTopPadding, hnavbar, hcollapse, htoggler]
  · simp [initResponsiveBehavior, adjustTopPadding, hnavbar, hcollapse, htoggler]
  · intro q classList clicks hq hc
    refine ⟨?_, ?_, ?_⟩
    · intro α N v
      by_cases hshow : "show" ∈ classList
      · simp [runWindowListener, collapseOnScroll, hq, hc, classListContains, hshow,
          clickToggler]
        intro hls
        simp [dispatchScroll, hls, runWindowListener, scrollAnimations, collapseOnScroll, hq,
          hc, classListContains, hshow, clickToggler]
      · simp [runWindowListener, collapseOnScroll, hq, hc, classListContains, hshow]
        intro hls
        simp [dispatchScroll, hls, runWindowListener, scrollAnimations, collapseOnScroll, hq,
          hc, classListContains, hshow]
    · intro innerWidth hostname href
      by_cases hcond : innerWidth < 992 ∧ "show" ∈ classList
      · simp [runLinkListener, collapseOnLinkClick, hq, hc, classListContains, hcond,
          clickToggler]
        intro link hlink
        simp [clickNavLink, hlink, runLinkListener, collapseOnLinkClick, hq, hc,
          classListContains, hcond, clickToggler]
      · have hcond' : ¬ (innerWidth < 992 ∧ classListContains classList "show" = true) := by
          simpa [classListContains] using hcond
        refine ⟨?_, ?_, ?_⟩
        · simp only [runLinkListener, collapseOnLinkClick, hq, if_neg hcond', hc]
          simp [hcond]
        · intro _
          simp only [runLinkListener, collapseOnLinkClick, hq, if_neg hcond']
        · intro link hlink
          simp only [clickNavLink, hlink, List.foldl_cons, List.foldl_nil, runLinkListener,
            collapseOnLinkClick, hq, if_neg hcond', hc]
          simp [hcond]
    · intro hostname href
      simp [runLinkListener, collapseOnLinkClick, hq]

/-- C9 witness: the sample page with an expanded menu, after `initApp`-style
initialisation of both scroll listeners. -/
theorem initResponsiveBehavior_collapse_wiring_witness :
    (dispatchScroll (ieeeNumber plainText) topViewport
        (initResponsiveBehavior (initScrollAnimations (ieeeNumber plainText) topViewport
          menuPage))).navbarToggler = some 1 ∧
      (runLinkListener 991 "example.org" "https://example.org/index.html"
        LinkListener.collapseMenu (initResponsiveBehavior menuPage)).navbarToggler = some 1 ∧
      runLinkListener 992 "example.org" "https://example.org/index.html"
        LinkListener.collapseMenu (initResponsiveBehavior menuPage) =
          initResponsiveBehavior menuPage := by
  obtain ⟨_, _, h⟩ :=
    initResponsiveBehavior_collapse_wiring menuPage 56 ["navbar-collapse", "show"] 0 rfl rfl rfl
  obtain ⟨hscroll, _, _⟩ :=
    h (initResponsiveBehavior (initScrollAnimations (ieeeNumber plainText) topViewport menuPage))
      ["navbar-collapse", "show"] 0 rfl rfl
  obtain ⟨_, hlink, hwide⟩ :=
    h (initResponsiveBehavior menuPage) ["navbar-collapse", "show"] 0 rfl rfl
  exact ⟨((hscroll Double (ieeeNumber plainText) topViewport).2.2 rfl).mpr (by decide),
    (hlink 991 "example.org" "https://example.org/index.html").1.mpr (by decide),
    hwide "example.org" "https://example.org/index.html"⟩

/-- C10: when the navbar, its collapsible region or its toggle control is
absent, `initResponsiveBehavior` reports no error and binds no collapsing
listener, neither to `scroll` nor to a navigation link; it still sets the
body's top padding to the navbar's `offsetHeight` in `px` when the navbar
exists, leaves the padding alone when it does not, and binds
`adjustTopPadding` to `resize` in both cases. -/
theorem initResponsiveBehavior_missing_parts (p : Page)
    (hmissing : p.navbar = none ∨ p.navbarCollapse = none ∨ p.navbarToggler = none) :
    (initResponsiveBehavior p).errors = p.errors ∧
      (initResponsiveBehavior p).scrollListeners = p.scrollListeners ∧
      (initResponsiveBehavior p).navLinks = p.navLinks ∧
      (∀ height, p.navbar = some height →
        (initResponsiveBehavior p).bodyPaddingTop = toString height ++ "px") ∧
      (p.navbar = none → (initResponsiveBehavior p).bodyPaddingTop = p.bodyPaddingTop) ∧
      WindowListener.adjustTopPadding ∈ (initResponsiveBehavior p).resizeListeners ∧
      ∀ (α : Type) (N : JsNumber α) (v : Viewport α) (q : Page),
        runWindowListener N v WindowListener.adjustTopPadding q = adjustTopPadding q := by
  have hcond : ¬ (p.navbar.isSome = true ∧ p.navbarCollapse.isSome = true ∧
      p.navbarToggler.isSome = true) := by
    rintro ⟨h1, h2, h3⟩
    rcases hmissing with h | h | h
    · simp [h] at h1
    · simp [h] at h2
    · simp [h] at h3
  have hmem : ∀ ls : List WindowListener,
      WindowListener.adjustTopPadding ∈ addNamedListener ls WindowListener.adjustTopPadding := by
    intro ls
    unfold addNamedListener
    split
    · assumption
    · simp
  unfold initResponsiveBehavior
  simp only [if_neg hcond]
  refine ⟨?_, ?_, ?_, ?_, ?_, hmem _, ?_⟩
  · unfold adjustTopPadding
    split <;> rfl
  · unfold adjustTopPadding
    split <;> rfl
  · unfold adjustTopPadding
    split <;> rfl
  · intro height hh
    simp [adjustTopPadding, hh]
  · intro hn
    simp [adjustTopPadding, hn]
  · intro α N v q
    rfl

/-- C10 witness: the sample page has a navbar 56 pixels high and neither a
collapsible region nor a toggle control; the body's top padding becomes
`56px`. -/
theorem initResponsiveBehavior_missing_parts_witness :
    (initResponsiveBehavior cardPage).errors = [] ∧
      (initResponsiveBehavior cardPage).scrollListeners = [] ∧
      (initResponsiveBehavior cardPage).bodyPaddingTop = "56px" ∧
      WindowListener.adjustTopPadding ∈ (initResponsiveBehavior cardPage).resizeListeners := by
  obtain ⟨herr, hscroll, _, hpad, _, hresize, _⟩ :=
    initResponsiveBehavior_missing_parts cardPage (Or.inr (Or.inl rfl))
  exact ⟨herr, hscroll, by rw [hpad 56 rfl]; decide, hresize⟩

end MainJs
